import Mathlib

/-!
# Route geometry kernel of `RouteMapObjectList` and the procedure sort order

A shallow embedding of `src/route/routemapobjectlist.cpp`
(`getNearestLegIndex`, `getRouteDistances`) and of
`ProcedureSearch::procedureSortFunc` in `src/search/proceduresearch.cpp`.

Modelling conventions

* C++ `float` values are modelled by rationals `ℚ`. The float operations `+=` and `-=`
  are the exact result rounded to the nearest binary32 value, ties to even (`floatAdd`,
  `floatSub`); comparisons and `std::abs` are exact. NaN and infinities are not modelled:
  a result beyond the binary32 range is rounded like a value of the largest binade.
  `std::numeric_limits<float>::max()` is the rational `FLT_MAX` below.
* C++ `int` values are modelled by `Int` (the indices stay far from overflow).
* The geometry engine (`atools::geo`) is not part of this source tree. It is a
  parameter `Geo Pos` over an arbitrary position type `Pos`.
* An output pointer is an `Option`: `none` is `nullptr`, `some v` is a slot that
  currently holds `v`. The functions return the new contents of the slots.
* `QList::at` with an index out of range aborts; the model returns `none`.
* A `QString` is modelled by a `String` with its lexicographic order.
-/

namespace ProcedureSearch

/-- The fields of an `atools::sql::SqlRecord` that the sort function reads, each named as
its column. -/
structure SqlRecord where
  type : String
  suffix : String
  has_gps_overlay : Bool
  airport_runway_name : String
  fix_ident : String
  deriving DecidableEq

/-- What the sort function uses from outside this source tree, for a type `T` of
`proc::MapProcedureTypes` values: the three constants of the priority table, the function
`proc::procedureType` and the value of `NavApp::hasSidStarInDatabase()`. -/
structure ProcEnv (T : Type) where
  PROCEDURE_SID : T
  PROCEDURE_STAR : T
  PROCEDURE_APPROACH : T
  procedureType : Bool → String → String → Bool → T
  hasSidStarInDatabase : Bool

variable {T : Type} [DecidableEq T]

/-- The function `ProcedureSearch::buildTypeFromApproachRec`. -/
def buildTypeFromApproachRec (env : ProcEnv T) (recApp : SqlRecord) : T :=
  env.procedureType env.hasSidStarInDatabase recApp.type recApp.suffix recApp.has_gps_overlay

/-- The entries of the static table `priority` of `procedureSortFunc`, in the order of its
initializer list. -/
def priority (env : ProcEnv T) : List (T × Int) :=
  [(env.PROCEDURE_SID, 0), (env.PROCEDURE_STAR, 1), (env.PROCEDURE_APPROACH, 2)]

/-- The lookup `QHash::value(key)` in a hash built from a list of entries: a later entry
replaces an earlier one with the same key, and a missing key yields the default value 0. -/
def hashValue (table : List (T × Int)) (key : T) : Int :=
  match table.reverse.find? (fun e => decide (e.1 = key)) with
  | some e => e.2
  | none => 0

/-- The function `ProcedureSearch::procedureSortFunc`. -/
def procedureSortFunc (env : ProcEnv T) (rec1 rec2 : SqlRecord) : Bool :=
  let priority1 := hashValue (priority env) (buildTypeFromApproachRec env rec1)
  let priority2 := hashValue (priority env) (buildTypeFromApproachRec env rec2)
  if priority1 = priority2 then
    let rwname1 := rec1.airport_runway_name
    let rwname2 := rec2.airport_runway_name
    if rwname1 = rwname2 then
      decide (rec1.fix_ident < rec2.fix_ident)
    else
      decide (rwname1 < rwname2)
  else
    decide (priority1 < priority2)

/-- The triple a record is ordered by: the priority of its procedure type, its runway name
and its fix ident. -/
def sortKey (env : ProcEnv T) (r : SqlRecord) : Int × String × String :=
  (hashValue (priority env) (buildTypeFromApproachRec env r), r.airport_runway_name,
    r.fix_ident)

/-- A sample environment: flag values 8, 32 and 1 for SID, STAR and approach; a GPS overlay
record with suffix D is a SID and with suffix A a STAR when the database has SID and STAR,
every other record is an approach. -/
def sampleEnv : ProcEnv Nat where
  PROCEDURE_SID := 8
  PROCEDURE_STAR := 32
  PROCEDURE_APPROACH := 1
  procedureType := fun hasSidStar type suffix gpsOverlay =>
    if hasSidStar ∧ type = "GPS" ∧ gpsOverlay ∧ suffix = "A" then 32
    else if hasSidStar ∧ type = "GPS" ∧ gpsOverlay ∧ suffix = "D" then 8
    else 1
  hasSidStarInDatabase := true

/-- A SID record for runway 27 at fix ZULU. -/
def sidRecord : SqlRecord := ⟨"GPS", "D", true, "27", "ZULU"⟩

/-- A STAR record for runway 09 at fix ALPHA. -/
def starRecord : SqlRecord := ⟨"GPS", "A", true, "09", "ALPHA"⟩

end ProcedureSearch

namespace RouteMapObjectList

/-- The constant `std::numeric_limits<float>::max()`, which is `(2 - 2^-23) * 2^127`. -/
def FLT_MAX : ℚ := 340282346638528859811704183484516925440

/-- The constant `RouteMapObjectList::INVALID_VALUE`. -/
def INVALID_VALUE : ℚ := FLT_MAX

/-- The part of a route leg (`RouteMapObject`) read by the two queries:
`getPosition()` and `getDistanceTo()`. -/
structure RouteMapObject (Pos : Type) where
  position : Pos
  distanceTo : ℚ

/-- The geometry engine used by the queries.
`distanceMeterToLine pos p1 p2` is `pos.distanceMeterToLine(p1, p2, valid)` and
returns the signed cross-track distance together with the `valid` flag,
`distanceMeterTo a b` is `a.distanceMeterTo(b)`, and `meterToNm` is
`atools::geo::meterToNm`. -/
structure Geo (Pos : Type) where
  distanceMeterToLine : Pos → Pos → Pos → ℚ × Bool
  distanceMeterTo : Pos → Pos → ℚ
  meterToNm : ℚ → ℚ

variable {Pos : Type}

/-- The list method `size()`. -/
def size (legs : List (RouteMapObject Pos)) : Int := (legs.length : Int)

/-- The list method `at(i)`: `none` when the index is out of range. -/
def legAt (legs : List (RouteMapObject Pos)) (i : Int) : Option (RouteMapObject Pos) :=
  if 0 ≤ i then legs[i.toNat]? else none

/-- The loop `for(int i = lo; i < hi; i++) body`, threading the loop state and
stopping with `none` as soon as the body aborts. -/
def forLoop {σ : Type} (lo hi : Int) (body : σ → Int → Option σ) (st : σ) : Option σ :=
  (List.range (hi - lo).toNat).foldlM (fun (s : σ) (k : Nat) => body s (lo + (k : Int))) st

/-- The local variables of `getNearestLegIndex`. -/
structure Nearest where
  nearest : Int
  minDistance : ℚ
  minCrossTrack : ℚ
  deriving DecidableEq

/-- Body of the first loop of `getNearestLegIndex` (segments `(i - 1, i)`). -/
def segmentBody (g : Geo Pos) (legs : List (RouteMapObject Pos)) (pos : Pos)
    (st : Nearest) (i : Int) : Option Nearest :=
  (legAt legs (i - 1)).bind fun a =>
  (legAt legs i).bind fun b =>
    let r := g.distanceMeterToLine pos a.position b.position
    let crossTrack := r.1
    let valid := r.2
    let distance := |crossTrack|
    if valid = true ∧ distance < st.minDistance then
      some { nearest := i, minDistance := distance, minCrossTrack := crossTrack }
    else
      some st

/-- Body of the second loop of `getNearestLegIndex` (leg positions). -/
def vertexBody (g : Geo Pos) (legs : List (RouteMapObject Pos)) (pos : Pos)
    (st : Nearest) (i : Int) : Option Nearest :=
  (legAt legs i).bind fun a =>
    let distance := g.distanceMeterTo a.position pos
    if distance < st.minDistance then
      some { nearest := i + 1, minDistance := distance, minCrossTrack := INVALID_VALUE }
    else
      some st

/-- The state of the locals of `getNearestLegIndex` after both loops. -/
def nearestScan (g : Geo Pos) (legs : List (RouteMapObject Pos)) (pos : Pos) : Option Nearest :=
  (forLoop 1 (size legs) (segmentBody g legs pos)
      { nearest := -1, minDistance := FLT_MAX, minCrossTrack := FLT_MAX }).bind fun st =>
    forLoop 0 (size legs) (vertexBody g legs pos) st

/-- The final block of `getNearestLegIndex`, `if(crossTrackDistance != nullptr) ...`: the
new content of the `crossTrackDistance` slot. -/
def writeCrossTrack (g : Geo Pos) (minCrossTrack : ℚ) (crossTrackDistance : Option ℚ) :
    Option ℚ :=
  match crossTrackDistance with
  | none => none
  | some _ =>
    if minCrossTrack = INVALID_VALUE then some INVALID_VALUE
    else some (g.meterToNm minCrossTrack)

/-- The function `RouteMapObjectList::getNearestLegIndex`. The result is the returned
index together with the new content of the `crossTrackDistance` slot. -/
def getNearestLegIndex (g : Geo Pos) (legs : List (RouteMapObject Pos)) (pos : Pos)
    (crossTrackDistance : Option ℚ) : Option (Int × Option ℚ) :=
  (nearestScan g legs pos).bind fun st =>
    some (st.nearest, writeCrossTrack g st.minCrossTrack crossTrackDistance)

/-- The five output slots of `getRouteDistances`. -/
structure Outputs where
  distFromStartNm : Option ℚ
  distToDestNm : Option ℚ
  nearestLegDistance : Option ℚ
  crossTrackDistance : Option ℚ
  nearestLegIndex : Option Int
  deriving DecidableEq

/-- Rounding of a rational to the nearest integer, ties to the even one. -/
def roundHalfEven (y : ℚ) : Int :=
  let f := ⌊y⌋
  let r := y - (f : ℚ)
  if r < 1 / 2 then f
  else if 1 / 2 < r then f + 1
  else if f % 2 = 0 then f
  else f + 1

/-- The spacing of the binary32 values around `a ≥ 0`, found by doubling: `q` is the
spacing of the binade tried so far, whose values are below `q * 2^24`. -/
def quantumOf : Nat → ℚ → ℚ → ℚ
  | 0, _, q => q
  | fuel + 1, a, q => if q * 16777216 ≤ a then quantumOf fuel a (2 * q) else q

/-- Rounding to the nearest binary32 value, ties to even: the spacing starts at `2^-149`
(subnormal values and the smallest normal binade) and doubles at most 253 times, up to the
spacing `2^104` of the binade of `FLT_MAX`. -/
def roundF32 (x : ℚ) : ℚ :=
  let q := quantumOf 253 |x| ((2 : ℚ) ^ (-149 : Int))
  if x < 0 then -((roundHalfEven (|x| / q) : ℚ) * q) else (roundHalfEven (|x| / q) : ℚ) * q

/-- The `float` addition of C++: the exact sum rounded to binary32. -/
def floatAdd (a b : ℚ) : ℚ := roundF32 (a + b)

/-- The `float` subtraction of C++: the exact difference rounded to binary32. -/
def floatSub (a b : ℚ) : ℚ := roundF32 (a - b)

/-- Body of the two summation loops: `acc += at(i).getDistanceTo()`. -/
def sumBody (legs : List (RouteMapObject Pos)) (acc : ℚ) (i : Int) : Option ℚ :=
  (legAt legs i).bind fun l => some (floatAdd acc l.distanceTo)

/-- The function `RouteMapObjectList::getRouteDistances`. The result is the returned
flag together with the new contents of the output slots. -/
def getRouteDistances (g : Geo Pos) (legs : List (RouteMapObject Pos)) (pos : Pos)
    (out : Outputs) : Option (Bool × Outputs) :=
  (getNearestLegIndex g legs pos out.crossTrackDistance).bind fun r =>
    let out1 : Outputs := { out with crossTrackDistance := r.2 }
    if r.1 ≠ -1 then
      let index : Int := if r.1 ≥ size legs then size legs - 1 else r.1
      let out2 : Outputs :=
        match out1.nearestLegIndex with
        | none => out1
        | some _ => { out1 with nearestLegIndex := some index }
      (legAt legs index).bind fun leg =>
        let distToCur := g.meterToNm (g.distanceMeterTo leg.position pos)
        let out3 : Outputs :=
          match out2.nearestLegDistance with
          | none => out2
          | some _ => { out2 with nearestLegDistance := some distToCur }
        let fromStart : Option Outputs :=
          match out3.distFromStartNm with
          | none => some out3
          | some _ =>
            (forLoop 0 (index + 1) (sumBody legs) 0).bind fun acc =>
              some { out3 with distFromStartNm := some |floatSub acc distToCur| }
        fromStart.bind fun out4 =>
          match out4.distToDestNm with
          | none => some (true, out4)
          | some _ =>
            (forLoop (index + 1) (size legs) (sumBody legs) 0).bind fun acc =>
              some (true, { out4 with distToDestNm := some |floatAdd acc distToCur| })
    else
      some (false, out1)

/-! ## Candidates of the nearest-leg search -/

/-- Segment `(j, j + 1)` is a usable candidate of the first loop: both ends exist, the
projection is valid and the absolute cross-track distance is below `FLT_MAX`. -/
def segmentCandidateAt (g : Geo Pos) (legs : List (RouteMapObject Pos)) (pos : Pos)
    (j : Nat) : Prop :=
  ∃ a b, legs[j]? = some a ∧ legs[j + 1]? = some b ∧
    (g.distanceMeterToLine pos a.position b.position).2 = true ∧
    |(g.distanceMeterToLine pos a.position b.position).1| < FLT_MAX

/-- Leg `j` is a usable candidate of the second loop: it exists and its point distance is
below `FLT_MAX`. -/
def vertexCandidateAt (g : Geo Pos) (legs : List (RouteMapObject Pos)) (pos : Pos)
    (j : Nat) : Prop :=
  ∃ a, legs[j]? = some a ∧ g.distanceMeterTo a.position pos < FLT_MAX

/-- Some pair of adjacent legs has a valid projection with an absolute cross-track distance
below `FLT_MAX`. -/
def hasSegmentCandidate (g : Geo Pos) (legs : List (RouteMapObject Pos)) (pos : Pos) : Bool :=
  (legs.zip legs.tail).any fun ab =>
    (g.distanceMeterToLine pos ab.1.position ab.2.position).2 &&
      decide (|(g.distanceMeterToLine pos ab.1.position ab.2.position).1| < FLT_MAX)

/-- Some leg has a point distance below `FLT_MAX`. -/
def hasVertexCandidate (g : Geo Pos) (legs : List (RouteMapObject Pos)) (pos : Pos) : Bool :=
  legs.any fun a => decide (g.distanceMeterTo a.position pos < FLT_MAX)

/-- Loop invariant of `getNearestLegIndex`, for a route of `N` legs, where `R` says
that a usable candidate has been met so far. -/
def NearInv (N : Int) (R : Prop) (s : Nearest) : Prop :=
  (s.nearest = -1 ∨ (1 ≤ s.nearest ∧ s.nearest ≤ N)) ∧
  (s.nearest = -1 → s.minDistance = FLT_MAX ∧ s.minCrossTrack = FLT_MAX) ∧
  (s.nearest ≠ -1 → s.minDistance < FLT_MAX) ∧
  (s.nearest = -1 ↔ ¬ R)

/-! ## The winner of the nearest-leg search -/

/-- The signed cross-track distance and the `valid` flag reported for the segment from leg
`j` to leg `j + 1`, the segment with ending index `j + 1`; `none` when there is no such
segment. -/
def crossTrackAt (g : Geo Pos) (legs : List (RouteMapObject Pos)) (pos : Pos) (j : Nat) :
    Option (ℚ × Bool) :=
  match legs[j]?, legs[j + 1]? with
  | some a, some b => some (g.distanceMeterToLine pos a.position b.position)
  | _, _ => none

/-- The point distance reported for the position of leg `j`; `none` when there is no such
leg. -/
def pointDistanceAt (g : Geo Pos) (legs : List (RouteMapObject Pos)) (pos : Pos) (j : Nat) :
    Option ℚ :=
  legs[j]?.map fun a => g.distanceMeterTo a.position pos

/-- No candidate was taken: the locals still hold their initial values. -/
def NoWinner (s : Nearest) : Prop :=
  s.nearest = -1 ∧ s.minDistance = FLT_MAX ∧ s.minCrossTrack = FLT_MAX

/-- The locals record the segment from leg `j` to leg `j + 1`, with signed cross-track
distance `x`: its projection is valid, and its absolute cross-track distance is below
`FLT_MAX` and strictly below that of every earlier segment with a valid projection. -/
def SegmentWins (g : Geo Pos) (legs : List (RouteMapObject Pos)) (pos : Pos) (s : Nearest)
    (j : Nat) (x : ℚ) : Prop :=
  s.nearest = (j : Int) + 1 ∧ crossTrackAt g legs pos j = some (x, true) ∧
  s.minDistance = |x| ∧ s.minCrossTrack = x ∧ |x| < FLT_MAX ∧
  ∀ j' x', j' < j → crossTrackAt g legs pos j' = some (x', true) → |x| < |x'|

/-- The locals record the position of leg `j`, with point distance `d`: the distance is
below `FLT_MAX`, strictly below the absolute cross-track distance of every segment with a
valid projection and strictly below the point distance of every earlier leg. -/
def VertexWins (g : Geo Pos) (legs : List (RouteMapObject Pos)) (pos : Pos) (s : Nearest)
    (j : Nat) (d : ℚ) : Prop :=
  s.nearest = (j : Int) + 1 ∧ pointDistanceAt g legs pos j = some d ∧
  s.minDistance = d ∧ s.minCrossTrack = INVALID_VALUE ∧ d < FLT_MAX ∧
  (∀ j' x', crossTrackAt g legs pos j' = some (x', true) → d < |x'|) ∧
  ∀ j' d', j' < j → pointDistanceAt g legs pos j' = some d' → d < d'

/-- Invariant of the first loop after `k` iterations. -/
def SegInv (g : Geo Pos) (legs : List (RouteMapObject Pos)) (pos : Pos) (k : Nat)
    (s : Nearest) : Prop :=
  s.minDistance ≤ FLT_MAX ∧
  (∀ j x, j < k → crossTrackAt g legs pos j = some (x, true) → s.minDistance ≤ |x|) ∧
  (NoWinner s ∨ ∃ j x, j < k ∧ SegmentWins g legs pos s j x)

/-- Invariant of the second loop after `k` iterations. -/
def VertInv (g : Geo Pos) (legs : List (RouteMapObject Pos)) (pos : Pos) (k : Nat)
    (s : Nearest) : Prop :=
  s.minDistance ≤ FLT_MAX ∧
  (∀ j x, crossTrackAt g legs pos j = some (x, true) → s.minDistance ≤ |x|) ∧
  (∀ j d, j < k → pointDistanceAt g legs pos j = some d → s.minDistance ≤ d) ∧
  (NoWinner s ∨ (∃ j x, SegmentWins g legs pos s j x) ∨
    ∃ j d, j < k ∧ VertexWins g legs pos s j d)

/-- What the locals of `getNearestLegIndex` hold after both loops: the recorded distance
is at most every candidate distance, and the locals are the initial ones, or record a
segment, or record a leg position. -/
def ScanSpec (g : Geo Pos) (legs : List (RouteMapObject Pos)) (pos : Pos) (s : Nearest) :
    Prop :=
  s.minDistance ≤ FLT_MAX ∧
  (∀ j x, crossTrackAt g legs pos j = some (x, true) → s.minDistance ≤ |x|) ∧
  (∀ j d, pointDistanceAt g legs pos j = some d → s.minDistance ≤ d) ∧
  (NoWinner s ∨ (∃ j x, SegmentWins g legs pos s j x) ∨
    ∃ j d, VertexWins g legs pos s j d)

/-- Executable check that `p` holds of the signed cross-track distance of every segment
with a valid projection. -/
def validSegmentsAll (g : Geo Pos) (legs : List (RouteMapObject Pos)) (pos : Pos)
    (p : ℚ → Bool) : Bool :=
  (List.range legs.length).all fun j =>
    match crossTrackAt g legs pos j with
    | some (x, true) => p x
    | _ => true

/-- Executable check that `p` holds of the point distance of every leg other than leg
`i`. -/
def otherLegsAll (g : Geo Pos) (legs : List (RouteMapObject Pos)) (pos : Pos) (i : Nat)
    (p : ℚ → Bool) : Bool :=
  (List.range legs.length).all fun j =>
    j == i ||
      match pointDistanceAt g legs pos j with
      | some d => p d
      | none => true

/-- Executable check that `p` holds of the point distance of every leg. -/
def everyLegAll (g : Geo Pos) (legs : List (RouteMapObject Pos)) (pos : Pos)
    (p : ℚ → Bool) : Bool :=
  (List.range legs.length).all fun j =>
    match pointDistanceAt g legs pos j with
    | some d => p d
    | none => true

/-! ## Quantities named by the specification of `getRouteDistances` -/

/-- The nearest-leg index clamped to the last leg: `min(k, N - 1)`. -/
def clampedIndex (legs : List (RouteMapObject Pos)) (k : Int) : Int :=
  min k (size legs - 1)

/-- The sum of `distanceTo` over a list of legs. -/
def sumDistanceTo (legs : List (RouteMapObject Pos)) : ℚ :=
  (legs.map fun l => l.distanceTo).sum

/-- The sum of `distanceTo` over a list of legs as a `float` loop accumulates it: from 0, in
the order of the list, every addition rounded to binary32. -/
def floatSum (legs : List (RouteMapObject Pos)) : ℚ :=
  legs.foldl (fun acc l => floatAdd acc l.distanceTo) 0

/-- No `float` operation of `getRouteDistances` loses anything, for the legs split after
their first `n` and the nearest-leg distance `c`: both accumulated sums equal the exact
sums, and the subtraction and the addition of `c` are exact. -/
def NoRounding (legs : List (RouteMapObject Pos)) (n : Nat) (c : ℚ) : Prop :=
  floatSum (legs.take n) = sumDistanceTo (legs.take n) ∧
  floatSum (legs.drop n) = sumDistanceTo (legs.drop n) ∧
  floatSub (sumDistanceTo (legs.take n)) c = sumDistanceTo (legs.take n) - c ∧
  floatAdd (sumDistanceTo (legs.drop n)) c = sumDistanceTo (legs.drop n) + c

/-! ## Concrete geometries used to evaluate the model -/

/-- Positions on a straight track, given in meters along the track: the point distance is
the absolute difference, the cross-track distance is zero and the projection is valid when
the position lies between the two ends of the segment. -/
def trackGeo : Geo ℚ where
  distanceMeterToLine := fun pos p1 p2 => (0, decide (min p1 p2 ≤ pos ∧ pos ≤ max p1 p2))
  distanceMeterTo := fun a b => |a - b|
  meterToNm := fun m => m / 1852

/-- A geometry engine that reports the reserved maximum for every distance and no valid
projection, as for a position that cannot be measured against. -/
def unreachableGeo : Geo Unit where
  distanceMeterToLine := fun _ _ _ => (FLT_MAX, false)
  distanceMeterTo := fun _ _ => FLT_MAX
  meterToNm := fun m => m / 1852

/-- Positions `(x, y)` beside a track that runs along the first coordinate, in meters: the
cross-track distance is the signed offset of the position from the track, the projection
is valid when the position is abeam of the segment, and the point distance is the sum of the
absolute coordinate differences. -/
def stripGeo : Geo (ℚ × ℚ) where
  distanceMeterToLine := fun pos p1 p2 =>
    (pos.2 - p1.2, decide (min p1.1 p2.1 ≤ pos.1 ∧ pos.1 ≤ max p1.1 p2.1))
  distanceMeterTo := fun a b => |a.1 - b.1| + |a.2 - b.2|
  meterToNm := fun m => m / 1852

/-- The straight track of `trackGeo` with a projection that is valid only strictly between
the two ends of the segment. -/
def openTrackGeo : Geo ℚ where
  distanceMeterToLine := fun pos p1 p2 => (0, decide (min p1 p2 < pos ∧ pos < max p1 p2))
  distanceMeterTo := fun a b => |a - b|
  meterToNm := fun m => m / 1852

/-- A geometry engine that reports the reserved maximum for every distance together with a
valid projection. -/
def saturatedGeo : Geo Unit where
  distanceMeterToLine := fun _ _ _ => (FLT_MAX, true)
  distanceMeterTo := fun _ _ => FLT_MAX
  meterToNm := fun m => m / 1852

/-! ## Sample inputs -/

/-- Three legs on a straight track, one nautical mile (1852 m) apart. -/
def sampleRoute : List (RouteMapObject ℚ) := [⟨0, 0⟩, ⟨1852, 1⟩, ⟨3704, 1⟩]

/-- A route that consists of its departure only. -/
def singleLegRoute : List (RouteMapObject ℚ) := [⟨0, 0⟩]

/-- All five output slots requested, each holding 0 before the call. -/
def allRequested : Outputs := ⟨some 0, some 0, some 0, some 0, some 0⟩

/-- Three legs along the track of `stripGeo`, one nautical mile apart. -/
def stripRoute : List (RouteMapObject (ℚ × ℚ)) :=
  [⟨(0, 0), 0⟩, ⟨(1852, 0), 1⟩, ⟨(3704, 0), 1⟩]

/-- Two legs of `stripGeo` whose first leg lies 1000 m beside the track. -/
def bentRoute : List (RouteMapObject (ℚ × ℚ)) :=
  [⟨(0, 1000), 0⟩, ⟨(1852, 0), 1⟩]

/-- Three legs one degree (111120 m) apart with leg distances 0, 111120 and 111120. -/
def degreeRoute : List (RouteMapObject ℚ) :=
  [⟨0, 0⟩, ⟨111120, 111120⟩, ⟨222240, 111120⟩]

/-- Only the two distance-along-route slots requested, holding 7 and 8 before the call. -/
def twoRequested : Outputs := ⟨some 7, some 8, none, none, none⟩

/-- Two legs for the geometry engines on `Unit`. -/
def unitRoute : List (RouteMapObject Unit) := [⟨(), 0⟩, ⟨(), 1⟩]

/-- Two legs of `stripGeo` at the same place along the track, 500 m apart across it. -/
def sideRoute : List (RouteMapObject (ℚ × ℚ)) :=
  [⟨(0, 0), 0⟩, ⟨(0, 500), 1⟩]

/-- A geometry engine on a straight track whose point distance is the signed difference of
the two positions, and which reports no valid projection. -/
def signedGeo : Geo ℚ where
  distanceMeterToLine := fun _ _ _ => (0, false)
  distanceMeterTo := fun a b => a - b
  meterToNm := fun m => m / 1852

/-- Three legs on the straight track with the binary32 leg distances 0, 2^24 and 1. -/
def carryRoute : List (RouteMapObject ℚ) := [⟨0, 0⟩, ⟨1852, 16777216⟩, ⟨3704, 1⟩]

/-- Four legs on the straight track with the binary32 leg distances 0, 1, 2^24 and 1. -/
def tailCarryRoute : List (RouteMapObject ℚ) :=
  [⟨0, 0⟩, ⟨1852, 1⟩, ⟨3704, 16777216⟩, ⟨5556, 1⟩]

/-- Three legs on the straight track whose leg distances are 0 and the binary32 values
nearest to 87.4 and to 0.1. -/
def decimalRoute : List (RouteMapObject ℚ) :=
  [⟨0, 0⟩, ⟨1852, 11455693 / 131072⟩, ⟨3704, 13421773 / 134217728⟩]

/-! ## Element access and loops -/

theorem legAt_natCast (legs : List (RouteMapObject Pos)) (k : Nat) :
    legAt legs (k : Int) = legs[k]? := by
  simp [legAt]

theorem legAt_eq_some_iff (legs : List (RouteMapObject Pos)) (i : Int) (a : RouteMapObject Pos) :
    legAt legs i = some a ↔ 0 ≤ i ∧ legs[i.toNat]? = some a := by
  unfold legAt
  by_cases h : 0 ≤ i
  · simp [h]
  · simp [h]

theorem legAt_of_lt (legs : List (RouteMapObject Pos)) (i : Int) (h0 : 0 ≤ i)
    (h1 : i < size legs) : ∃ a, legAt legs i = some a ∧ legs[i.toNat]? = some a := by
  have hlt : i.toNat < legs.length := by
    unfold size at h1
    omega
  refine ⟨legs[i.toNat], ?_, ?_⟩
  · simp [legAt, h0, hlt]
  · simp [hlt]

/-- Invariant rule for `forLoop`: a property indexed by the number of completed iterations
that holds initially and is preserved by every iteration (which therefore does not abort)
holds for the final state, and the loop does not abort. -/
theorem forLoop_inv {σ : Type} (lo hi : Int) (body : σ → Int → Option σ)
    (Inv : Nat → σ → Prop) (st : σ) (h0 : Inv 0 st)
    (hstep : ∀ k s, k < (hi - lo).toNat → Inv k s →
      ∃ s', body s (lo + (k : Int)) = some s' ∧ Inv (k + 1) s') :
    ∃ s', forLoop lo hi body st = some s' ∧ Inv (hi - lo).toNat s' := by
  unfold forLoop
  generalize (hi - lo).toNat = n at hstep
  induction n with
  | zero => exact ⟨st, by simp, h0⟩
  | succ n ih =>
    obtain ⟨s1, hs1, hI1⟩ := ih (fun k s hk hI => hstep k s (Nat.lt_succ_of_lt hk) hI)
    obtain ⟨s2, hs2, hI2⟩ := hstep n s1 (Nat.lt_succ_self n) hI1
    refine ⟨s2, ?_, hI2⟩
    rw [List.range_succ, List.foldlM_append, hs1]
    simp [hs2]

/-! ## The scan of `getNearestLegIndex` -/

theorem hasSegmentCandidate_iff (g : Geo Pos) (legs : List (RouteMapObject Pos)) (pos : Pos) :
    hasSegmentCandidate g legs pos = true ↔ ∃ j, segmentCandidateAt g legs pos j := by
  unfold hasSegmentCandidate segmentCandidateAt
  rw [List.any_eq_true]
  constructor
  · rintro ⟨⟨a, b⟩, hmem, hc⟩
    obtain ⟨j, hj⟩ := List.mem_iff_getElem?.mp hmem
    rw [List.getElem?_zip_eq_some] at hj
    simp only [Bool.and_eq_true, decide_eq_true_eq] at hc
    refine ⟨j, a, b, hj.1, ?_, hc.1, hc.2⟩
    have := hj.2
    rwa [List.getElem?_tail] at this
  · rintro ⟨j, a, b, ha, hb, hv, hd⟩
    refine ⟨(a, b), ?_, ?_⟩
    · apply List.mem_iff_getElem?.mpr
      refine ⟨j, ?_⟩
      rw [List.getElem?_zip_eq_some]
      refine ⟨ha, ?_⟩
      rw [List.getElem?_tail]
      exact hb
    · simp only [Bool.and_eq_true, decide_eq_true_eq]
      exact ⟨hv, hd⟩

theorem hasVertexCandidate_iff (g : Geo Pos) (legs : List (RouteMapObject Pos)) (pos : Pos) :
    hasVertexCandidate g legs pos = true ↔ ∃ j, vertexCandidateAt g legs pos j := by
  unfold hasVertexCandidate vertexCandidateAt
  rw [List.any_eq_true]
  constructor
  · rintro ⟨a, hmem, hc⟩
    obtain ⟨j, hj⟩ := List.mem_iff_getElem?.mp hmem
    exact ⟨j, a, hj, by simpa using hc⟩
  · rintro ⟨j, a, ha, hd⟩
    exact ⟨a, List.mem_iff_getElem?.mpr ⟨j, ha⟩, by simpa using hd⟩

theorem NearInv.congr {N : Int} {R R' : Prop} {s : Nearest} (h : R ↔ R')
    (hs : NearInv N R s) : NearInv N R' s := by
  obtain ⟨h1, h2, h3, h4⟩ := hs
  exact ⟨h1, h2, h3, by rw [h4, h]⟩

/-- One guarded update of the locals preserves the invariant. -/
theorem NearInv.step {N : Int} {R : Prop} {s : Nearest} (hs : NearInv N R s)
    (c : Prop) [Decidable c] (idx : Int) (d ct : ℚ) (h1 : 1 ≤ idx) (h2 : idx ≤ N) :
    NearInv N (R ∨ (c ∧ d < FLT_MAX))
      (if c ∧ d < s.minDistance then
        { nearest := idx, minDistance := d, minCrossTrack := ct } else s) := by
  obtain ⟨hr, hm, hlt, hiff⟩ := hs
  have hle : s.minDistance ≤ FLT_MAX := by
    by_cases hn : s.nearest = -1
    · exact le_of_eq (hm hn).1
    · exact le_of_lt (hlt hn)
  by_cases hc : c ∧ d < s.minDistance
  · rw [if_pos hc]
    have hd : d < FLT_MAX := lt_of_lt_of_le hc.2 hle
    have hne : idx ≠ -1 := by omega
    refine ⟨Or.inr ⟨h1, h2⟩, fun h => absurd h hne, fun _ => hd, ?_⟩
    constructor
    · intro h
      exact absurd h hne
    · intro h
      exact absurd (Or.inr ⟨hc.1, hd⟩) h
  · rw [if_neg hc]
    refine ⟨hr, hm, hlt, ?_⟩
    constructor
    · intro hn hR
      rcases hR with hR | ⟨hc1, hc2⟩
      · exact (hiff.mp hn) hR
      · apply hc
        refine ⟨hc1, ?_⟩
        rw [(hm hn).1]
        exact hc2
    · intro h
      exact hiff.mpr (fun hR => h (Or.inl hR))

/-- The first loop body when both ends of the segment are in range. -/
theorem segmentBody_of_legs (g : Geo Pos) (legs : List (RouteMapObject Pos)) (pos : Pos)
    (s : Nearest) (i : Int) (a b : RouteMapObject Pos)
    (ha : legAt legs (i - 1) = some a) (hb : legAt legs i = some b) :
    segmentBody g legs pos s i = some
      (if (g.distanceMeterToLine pos a.position b.position).2 = true ∧
          |(g.distanceMeterToLine pos a.position b.position).1| < s.minDistance then
        { nearest := i, minDistance := |(g.distanceMeterToLine pos a.position b.position).1|,
          minCrossTrack := (g.distanceMeterToLine pos a.position b.position).1 }
      else s) := by
  simp only [segmentBody, ha, hb, Option.some_bind]
  split <;> rfl

/-- The second loop body when the leg is in range. -/
theorem vertexBody_of_leg (g : Geo Pos) (legs : List (RouteMapObject Pos)) (pos : Pos)
    (s : Nearest) (i : Int) (a : RouteMapObject Pos) (ha : legAt legs i = some a) :
    vertexBody g legs pos s i = some
      (if True ∧ g.distanceMeterTo a.position pos < s.minDistance then
        { nearest := i + 1, minDistance := g.distanceMeterTo a.position pos,
          minCrossTrack := INVALID_VALUE }
      else s) := by
  simp only [vertexBody, ha, Option.some_bind, true_and]
  split <;> rfl

/-- The first loop does not abort and establishes the invariant for the segment
candidates. -/
theorem segmentLoop_spec (g : Geo Pos) (legs : List (RouteMapObject Pos)) (pos : Pos) :
    ∃ s, forLoop 1 (size legs) (segmentBody g legs pos)
        { nearest := -1, minDistance := FLT_MAX, minCrossTrack := FLT_MAX } = some s ∧
      NearInv (size legs) (∃ j, segmentCandidateAt g legs pos j) s := by
  obtain ⟨s, hs, hI⟩ := forLoop_inv 1 (size legs) (segmentBody g legs pos)
    (fun k s => NearInv (size legs) (∃ j, j < k ∧ segmentCandidateAt g legs pos j) s)
    { nearest := -1, minDistance := FLT_MAX, minCrossTrack := FLT_MAX }
    ⟨Or.inl rfl, fun _ => ⟨rfl, rfl⟩, fun h => absurd rfl h,
      ⟨fun _ h => by obtain ⟨j, hj, _⟩ := h; omega, fun _ => rfl⟩⟩
    (by
      intro k s hk hI
      have hk1 : k + 1 < legs.length := by
        unfold size at hk
        omega
      have ha : legAt legs (1 + (k : Int) - 1) = some legs[k] := by
        have : (1 : Int) + (k : Int) - 1 = ((k : Nat) : Int) := by omega
        rw [this, legAt_natCast]
        exact List.getElem?_eq_getElem (by omega)
      have hb : legAt legs (1 + (k : Int)) = some legs[k + 1] := by
        have : (1 : Int) + (k : Int) = ((k + 1 : Nat) : Int) := by omega
        rw [this, legAt_natCast]
        exact List.getElem?_eq_getElem hk1
      refine ⟨_, segmentBody_of_legs g legs pos s _ _ _ ha hb, ?_⟩
      refine NearInv.congr ?_ (NearInv.step hI _ (1 + (k : Int)) _ _ (by omega)
        (by unfold size; omega))
      constructor
      · rintro (⟨j, hj, hc⟩ | ⟨hv, hd⟩)
        · exact ⟨j, by omega, hc⟩
        · exact ⟨k, by omega, legs[k], legs[k + 1], List.getElem?_eq_getElem (by omega),
            List.getElem?_eq_getElem hk1, hv, hd⟩
      · rintro ⟨j, hj, hc⟩
        by_cases hjk : j < k
        · exact Or.inl ⟨j, hjk, hc⟩
        · have hjk2 : j = k := by omega
          subst hjk2
          obtain ⟨a, b, ha2, hb2, hv, hd⟩ := hc
          rw [List.getElem?_eq_getElem (by omega)] at ha2
          rw [List.getElem?_eq_getElem hk1] at hb2
          cases ha2
          cases hb2
          exact Or.inr ⟨hv, hd⟩)
  refine ⟨s, hs, NearInv.congr ?_ hI⟩
  constructor
  · rintro ⟨j, _, hc⟩
    exact ⟨j, hc⟩
  · rintro ⟨j, hc⟩
    refine ⟨j, ?_, hc⟩
    obtain ⟨a, b, _, hb, _⟩ := hc
    have := (List.getElem?_eq_some_iff.mp hb).1
    unfold size
    omega

/-- The second loop does not abort and extends the invariant by the vertex candidates. -/
theorem vertexLoop_spec (g : Geo Pos) (legs : List (RouteMapObject Pos)) (pos : Pos)
    (R : Prop) (s0 : Nearest) (h0 : NearInv (size legs) R s0) :
    ∃ s, forLoop 0 (size legs) (vertexBody g legs pos) s0 = some s ∧
      NearInv (size legs) (R ∨ ∃ j, vertexCandidateAt g legs pos j) s := by
  obtain ⟨s, hs, hI⟩ := forLoop_inv 0 (size legs) (vertexBody g legs pos)
    (fun k s => NearInv (size legs) (R ∨ ∃ j, j < k ∧ vertexCandidateAt g legs pos j) s)
    s0
    (NearInv.congr ⟨fun h => Or.inl h, fun h => h.elim id
      (fun h => by obtain ⟨j, hj, _⟩ := h; omega)⟩ h0)
    (by
      intro k s hk hI
      have hk1 : k < legs.length := by
        unfold size at hk
        omega
      have ha : legAt legs (0 + (k : Int)) = some legs[k] := by
        rw [zero_add, legAt_natCast]
        exact List.getElem?_eq_getElem hk1
      refine ⟨_, vertexBody_of_leg g legs pos s _ _ ha, ?_⟩
      have hstep := NearInv.step hI True (0 + (k : Int) + 1)
        (g.distanceMeterTo legs[k].position pos) INVALID_VALUE (by omega)
        (by unfold size; omega)
      refine NearInv.congr ?_ hstep
      constructor
      · rintro ((hR | ⟨j, hj, hc⟩) | ⟨_, hd⟩)
        · exact Or.inl hR
        · exact Or.inr ⟨j, by omega, hc⟩
        · exact Or.inr ⟨k, by omega, legs[k], List.getElem?_eq_getElem hk1, hd⟩
      · rintro (hR | ⟨j, hj, hc⟩)
        · exact Or.inl (Or.inl hR)
        · by_cases hjk : j < k
          · exact Or.inl (Or.inr ⟨j, hjk, hc⟩)
          · have hjk2 : j = k := by omega
            subst hjk2
            obtain ⟨a, ha2, hd⟩ := hc
            rw [List.getElem?_eq_getElem hk1] at ha2
            cases ha2
            exact Or.inr ⟨trivial, hd⟩)
  refine ⟨s, hs, NearInv.congr ?_ hI⟩
  constructor
  · rintro (hR | ⟨j, _, hc⟩)
    · exact Or.inl hR
    · exact Or.inr ⟨j, hc⟩
  · rintro (hR | ⟨j, hc⟩)
    · exact Or.inl hR
    · refine Or.inr ⟨j, ?_, hc⟩
      obtain ⟨a, ha, _⟩ := hc
      have := (List.getElem?_eq_some_iff.mp ha).1
      unfold size
      omega

/-- Both loops of `getNearestLegIndex` run to completion; the final locals satisfy the
invariant for all candidates. -/
theorem nearestScan_spec (g : Geo Pos) (legs : List (RouteMapObject Pos)) (pos : Pos) :
    ∃ s, nearestScan g legs pos = some s ∧
      NearInv (size legs)
        (hasSegmentCandidate g legs pos = true ∨ hasVertexCandidate g legs pos = true) s := by
  obtain ⟨s1, hs1, hI1⟩ := segmentLoop_spec g legs pos
  obtain ⟨s2, hs2, hI2⟩ := vertexLoop_spec g legs pos _ s1 hI1
  refine ⟨s2, ?_, ?_⟩
  · unfold nearestScan
    rw [hs1, Option.some_bind, hs2]
  · rw [hasSegmentCandidate_iff, hasVertexCandidate_iff]
    exact hI2

/-- The value of `getNearestLegIndex` in terms of the final locals. -/
theorem getNearestLegIndex_of_scan (g : Geo Pos) (legs : List (RouteMapObject Pos)) (pos : Pos)
    (ct : Option ℚ) (s : Nearest) (hs : nearestScan g legs pos = some s) :
    getNearestLegIndex g legs pos ct =
      some (s.nearest, writeCrossTrack g s.minCrossTrack ct) := by
  unfold getNearestLegIndex
  rw [hs, Option.some_bind]

/-! ## The summation loops of `getRouteDistances` -/

/-- A summation loop over legs `lo .. hi - 1` within the route does not abort and
accumulates the `distanceTo` values of these legs with `float` additions. -/
theorem sumLoop_spec (legs : List (RouteMapObject Pos)) (lo : Nat) (hi : Int)
    (hhi : hi ≤ size legs) (acc0 : ℚ) :
    forLoop (lo : Int) hi (sumBody legs) acc0 =
      some (((legs.drop lo).take (hi - (lo : Int)).toNat).foldl
        (fun acc l => floatAdd acc l.distanceTo) acc0) := by
  obtain ⟨acc, hacc, hI⟩ := forLoop_inv (lo : Int) hi (sumBody legs)
    (fun k acc => acc = ((legs.drop lo).take k).foldl
      (fun acc l => floatAdd acc l.distanceTo) acc0) acc0
    (by simp)
    (by
      intro k acc hk hI
      have hlt : lo + k < legs.length := by
        unfold size at hhi
        omega
      have ha : legAt legs ((lo : Int) + (k : Int)) = some legs[lo + k] := by
        have : (lo : Int) + (k : Int) = ((lo + k : Nat) : Int) := by omega
        rw [this, legAt_natCast]
        exact List.getElem?_eq_getElem hlt
      refine ⟨floatAdd acc legs[lo + k].distanceTo, by simp [sumBody, ha], ?_⟩
      have hk2 : k < (legs.drop lo).length := by
        rw [List.length_drop]
        omega
      show floatAdd acc legs[lo + k].distanceTo = ((legs.drop lo).take (k + 1)).foldl
        (fun acc l => floatAdd acc l.distanceTo) acc0
      rw [hI, List.take_succ, List.getElem?_eq_getElem hk2]
      simp [List.foldl_append])
  rw [hacc, hI]

/-! ## The value of `getRouteDistances` -/

theorem clamp_eq (legs : List (RouteMapObject Pos)) (k : Int) :
    (if k ≥ size legs then size legs - 1 else k) = clampedIndex legs k := by
  unfold clampedIndex
  split
  · rw [min_eq_right (by omega)]
  · rw [min_eq_left (by omega)]

/-- The failure branch: `getRouteDistances` returns false and only the cross-track slot
has been written, by `getNearestLegIndex`. -/
theorem getRouteDistances_of_scan_neg (g : Geo Pos) (legs : List (RouteMapObject Pos))
    (pos : Pos) (out : Outputs) (s : Nearest) (hs : nearestScan g legs pos = some s)
    (hn : s.nearest = -1) :
    getRouteDistances g legs pos out = some (false,
      { out with crossTrackDistance := writeCrossTrack g s.minCrossTrack out.crossTrackDistance }) := by
  unfold getRouteDistances
  rw [getNearestLegIndex_of_scan g legs pos _ s hs]
  simp [hn]

/-- The success branch: `getRouteDistances` returns true, no element access aborts, and
each requested slot holds the value computed from the clamped index. -/
theorem getRouteDistances_of_scan_pos (g : Geo Pos) (legs : List (RouteMapObject Pos))
    (pos : Pos) (out : Outputs) (s : Nearest) (hs : nearestScan g legs pos = some s)
    (h1 : 1 ≤ s.nearest) (h2 : s.nearest ≤ size legs) :
    ∃ leg, legs[(clampedIndex legs s.nearest).toNat]? = some leg ∧
      getRouteDistances g legs pos out = some (true,
        { distFromStartNm := out.distFromStartNm.map fun _ =>
            |floatSub (floatSum (legs.take ((clampedIndex legs s.nearest).toNat + 1)))
              (g.meterToNm (g.distanceMeterTo leg.position pos))|
          distToDestNm := out.distToDestNm.map fun _ =>
            |floatAdd (floatSum (legs.drop ((clampedIndex legs s.nearest).toNat + 1)))
              (g.meterToNm (g.distanceMeterTo leg.position pos))|
          nearestLegDistance := out.nearestLegDistance.map fun _ =>
            g.meterToNm (g.distanceMeterTo leg.position pos)
          crossTrackDistance := writeCrossTrack g s.minCrossTrack out.crossTrackDistance
          nearestLegIndex := out.nearestLegIndex.map fun _ => clampedIndex legs s.nearest }) := by
  have hc0 : 0 ≤ clampedIndex legs s.nearest := by
    unfold clampedIndex
    exact le_min (by omega) (by omega)
  have hc1 : clampedIndex legs s.nearest < size legs := by
    unfold clampedIndex
    exact lt_of_le_of_lt (min_le_right _ _) (by omega)
  obtain ⟨leg, hleg, hleg2⟩ := legAt_of_lt legs _ hc0 hc1
  refine ⟨leg, hleg2, ?_⟩
  have hne : s.nearest ≠ -1 := by omega
  have hfrom : forLoop 0 (clampedIndex legs s.nearest + 1) (sumBody legs) 0 =
      some (floatSum (legs.take ((clampedIndex legs s.nearest).toNat + 1))) := by
    have h := sumLoop_spec legs 0 (clampedIndex legs s.nearest + 1) (by omega) 0
    rw [Nat.cast_zero, List.drop_zero, sub_zero] at h
    have hnat : (clampedIndex legs s.nearest + 1).toNat =
        (clampedIndex legs s.nearest).toNat + 1 := by omega
    rw [h, hnat]
    rfl
  have hto : forLoop (clampedIndex legs s.nearest + 1) (size legs) (sumBody legs) 0 =
      some (floatSum (legs.drop ((clampedIndex legs s.nearest).toNat + 1))) := by
    have h := sumLoop_spec legs ((clampedIndex legs s.nearest).toNat + 1) (size legs)
      (le_refl _) 0
    have hcast : (((clampedIndex legs s.nearest).toNat + 1 : Nat) : Int) =
        clampedIndex legs s.nearest + 1 := by omega
    rw [hcast] at h
    rw [h, List.take_of_length_le]
    · rfl
    · rw [List.length_drop]
      unfold size
      omega
  unfold getRouteDistances
  rw [getNearestLegIndex_of_scan g legs pos _ s hs]
  simp only [Option.some_bind, clamp_eq, hne, ne_eq, not_false_eq_true, if_true, hleg]
  obtain ⟨o1, o2, o3, o4, o5⟩ := out
  cases o1 <;> cases o2 <;> cases o3 <;> cases o5 <;> simp [hfrom, hto]

/-- Every run of `getRouteDistances` is one of the two branches above. -/
theorem getRouteDistances_cases (g : Geo Pos) (legs : List (RouteMapObject Pos)) (pos : Pos)
    (out : Outputs) :
    ∃ s, nearestScan g legs pos = some s ∧
      ((s.nearest = -1 ∧ getRouteDistances g legs pos out = some (false,
          { out with crossTrackDistance := out.crossTrackDistance.map fun _ => INVALID_VALUE })) ∨
       (1 ≤ s.nearest ∧ s.nearest ≤ size legs ∧
        ∃ leg, legs[(clampedIndex legs s.nearest).toNat]? = some leg ∧
          getRouteDistances g legs pos out = some (true,
            { distFromStartNm := out.distFromStartNm.map fun _ =>
                |floatSub (floatSum (legs.take ((clampedIndex legs s.nearest).toNat + 1)))
                  (g.meterToNm (g.distanceMeterTo leg.position pos))|
              distToDestNm := out.distToDestNm.map fun _ =>
                |floatAdd (floatSum (legs.drop ((clampedIndex legs s.nearest).toNat + 1)))
                  (g.meterToNm (g.distanceMeterTo leg.position pos))|
              nearestLegDistance := out.nearestLegDistance.map fun _ =>
                g.meterToNm (g.distanceMeterTo leg.position pos)
              crossTrackDistance := writeCrossTrack g s.minCrossTrack out.crossTrackDistance
              nearestLegIndex := out.nearestLegIndex.map fun _ =>
                clampedIndex legs s.nearest }))) := by
  obtain ⟨s, hs, hr, hm, _, _⟩ := nearestScan_spec g legs pos
  refine ⟨s, hs, ?_⟩
  rcases hr with hn | ⟨h1, h2⟩
  · left
    refine ⟨hn, ?_⟩
    rw [getRouteDistances_of_scan_neg g legs pos out s hs hn, (hm hn).2]
    cases hct : out.crossTrackDistance <;> simp [writeCrossTrack, INVALID_VALUE]
  · right
    exact ⟨h1, h2, getRouteDistances_of_scan_pos g legs pos out s hs h1 h2⟩

/-- A successful run of `getRouteDistances` determines all slots. -/
theorem getRouteDistances_true_inv (g : Geo Pos) (legs : List (RouteMapObject Pos)) (pos : Pos)
    (out out' : Outputs) (h : getRouteDistances g legs pos out = some (true, out')) :
    ∃ s leg, nearestScan g legs pos = some s ∧ 1 ≤ s.nearest ∧ s.nearest ≤ size legs ∧
      legs[(clampedIndex legs s.nearest).toNat]? = some leg ∧
      out' =
        { distFromStartNm := out.distFromStartNm.map fun _ =>
            |floatSub (floatSum (legs.take ((clampedIndex legs s.nearest).toNat + 1)))
              (g.meterToNm (g.distanceMeterTo leg.position pos))|
          distToDestNm := out.distToDestNm.map fun _ =>
            |floatAdd (floatSum (legs.drop ((clampedIndex legs s.nearest).toNat + 1)))
              (g.meterToNm (g.distanceMeterTo leg.position pos))|
          nearestLegDistance := out.nearestLegDistance.map fun _ =>
            g.meterToNm (g.distanceMeterTo leg.position pos)
          crossTrackDistance := writeCrossTrack g s.minCrossTrack out.crossTrackDistance
          nearestLegIndex := out.nearestLegIndex.map fun _ => clampedIndex legs s.nearest } := by
  obtain ⟨s, hs, hc | ⟨h1, h2, leg, hleg, hc⟩⟩ := getRouteDistances_cases g legs pos out
  · rw [hc.2] at h
    simp at h
  · rw [hc] at h
    simp only [Option.some.injEq, Prod.mk.injEq, true_and] at h
    exact ⟨s, leg, hs, h1, h2, hleg, h.symm⟩

/-- The sum over a route splits at every index. -/
theorem sumDistanceTo_take_add_drop (legs : List (RouteMapObject Pos)) (n : Nat) :
    sumDistanceTo (legs.take n) + sumDistanceTo (legs.drop n) = sumDistanceTo legs := by
  unfold sumDistanceTo
  rw [← List.sum_append, ← List.map_append, List.take_append_drop]

theorem sumDistanceTo_nonneg (legs : List (RouteMapObject Pos))
    (h : ∀ l ∈ legs, 0 ≤ l.distanceTo) : 0 ≤ sumDistanceTo legs := by
  unfold sumDistanceTo
  apply List.sum_nonneg
  intro x hx
  obtain ⟨l, hl, rfl⟩ := List.mem_map.mp hx
  exact h l hl

/-- When no `float` operation loses anything, the two along-route slots hold the exact
values `|S - c|` and `|R + c|`. -/
theorem getRouteDistances_exact_slots (g : Geo Pos) (legs : List (RouteMapObject Pos))
    (pos : Pos) (out out' : Outputs) (ct : Option ℚ) (k : Int) (slot : Option ℚ) (a b c : ℚ)
    (h : getRouteDistances g legs pos out = some (true, out'))
    (hk : getNearestLegIndex g legs pos ct = some (k, slot))
    (ha : out'.distFromStartNm = some a) (hb : out'.distToDestNm = some b)
    (hc : out'.nearestLegDistance = some c)
    (hexact : NoRounding legs ((min k (size legs - 1)).toNat + 1) c) :
    a = |sumDistanceTo (legs.take ((min k (size legs - 1)).toNat + 1)) - c| ∧
      b = |sumDistanceTo (legs.drop ((min k (size legs - 1)).toNat + 1)) + c| := by
  obtain ⟨s, leg, hs, h1, h2, hleg, rfl⟩ := getRouteDistances_true_inv g legs pos out out' h
  rw [getNearestLegIndex_of_scan g legs pos ct s hs] at hk
  simp only [Option.some.injEq, Prod.mk.injEq] at hk
  obtain ⟨hk, _⟩ := hk
  subst hk
  have hclamp : min s.nearest (size legs - 1) = clampedIndex legs s.nearest := rfl
  rw [hclamp] at hexact ⊢
  obtain ⟨e1, e2, e3, e4⟩ := hexact
  simp only [Option.map_eq_some'] at ha hb hc
  obtain ⟨_, _, rfl⟩ := ha
  obtain ⟨_, _, rfl⟩ := hb
  obtain ⟨_, _, rfl⟩ := hc
  rw [e1, e2, e3, e4]
  exact ⟨rfl, rfl⟩

theorem roundF32_zero : roundF32 0 = 0 := by
  decide!

/-! ## Claims on `getNearestLegIndex` -/

/-- C1 (counterexample): a route of one leg whose point distance is the reserved maximum
is not empty, yet `getNearestLegIndex` returns -1. -/
theorem getNearestLegIndex_nonempty_not_found :
    size [(⟨(), 0⟩ : RouteMapObject Unit)] = 1 ∧
      getNearestLegIndex unreachableGeo [⟨(), 0⟩] () none = some (-1, none) := by
  decide!

/-- C1 (amended): for every leg sequence of length `N` and every query position,
`getNearestLegIndex` returns -1 or an index in `[0, N]`, and it returns -1 exactly when no
pair of adjacent legs has a valid projection with an absolute cross-track distance below
`FLT_MAX` and no leg has a point distance below `FLT_MAX`. -/
theorem getNearestLegIndex_range (g : Geo Pos) (legs : List (RouteMapObject Pos)) (pos : Pos)
    (ct : Option ℚ) :
    ∃ k slot, getNearestLegIndex g legs pos ct = some (k, slot) ∧
      (k = -1 ∨ (0 ≤ k ∧ k ≤ size legs)) ∧
      (k = -1 ↔ (hasSegmentCandidate g legs pos = false ∧
        hasVertexCandidate g legs pos = false)) := by
  obtain ⟨s, hs, hr, _, _, hiff⟩ := nearestScan_spec g legs pos
  refine ⟨s.nearest, _, getNearestLegIndex_of_scan g legs pos ct s hs, ?_, ?_⟩
  · rcases hr with h | ⟨h1, h2⟩
    · exact Or.inl h
    · exact Or.inr ⟨by omega, h2⟩
  · rw [hiff, not_or, Bool.not_eq_true, Bool.not_eq_true]

/-- C2: for the empty leg sequence and every query position, `getNearestLegIndex` returns
-1 and `getRouteDistances` returns false. -/
theorem empty_route_not_found (g : Geo Pos) (pos : Pos) (ct : Option ℚ) (out : Outputs) :
    (∃ slot, getNearestLegIndex g [] pos ct = some (-1, slot)) ∧
      (∃ out', getRouteDistances g [] pos out = some (false, out')) := by
  have hscan : nearestScan g ([] : List (RouteMapObject Pos)) pos =
      some { nearest := -1, minDistance := FLT_MAX, minCrossTrack := FLT_MAX } := by
    simp [nearestScan, forLoop, size]
  constructor
  · exact ⟨_, getNearestLegIndex_of_scan g [] pos ct _ hscan⟩
  · unfold getRouteDistances
    rw [getNearestLegIndex_of_scan g [] pos _ _ hscan]
    simp


/-! ## Claims on `getRouteDistances` -/

/-- C3: for every leg sequence and every query position, `getRouteDistances` returns true
if and only if `getNearestLegIndex` on the same sequence and position returns a value
different from -1 (and both calls run to completion). -/
theorem getRouteDistances_success_iff (g : Geo Pos) (legs : List (RouteMapObject Pos))
    (pos : Pos) (out : Outputs) (ct : Option ℚ) :
    ∃ r k, getRouteDistances g legs pos out = some r ∧
      getNearestLegIndex g legs pos ct = some k ∧ (r.1 = true ↔ k.1 ≠ -1) := by
  obtain ⟨s, hs, h | ⟨h1, h2, leg, _, h⟩⟩ := getRouteDistances_cases g legs pos out
  · exact ⟨_, _, h.2, getNearestLegIndex_of_scan g legs pos ct s hs, by simp [h.1]⟩
  · refine ⟨_, _, h, getNearestLegIndex_of_scan g legs pos ct s hs, ?_⟩
    have : s.nearest ≠ -1 := by omega
    simp [this]

/-- C4 (counterexample): on the empty route with all slots requested, each holding 0,
`getRouteDistances` fails and the `crossTrackDistance` slot holds `INVALID_VALUE`
afterwards, which is not the value it held before. -/
theorem getRouteDistances_failure_writes_crossTrack :
    getRouteDistances trackGeo [] 0 allRequested =
        some (false, { allRequested with crossTrackDistance := some INVALID_VALUE }) ∧
      (some INVALID_VALUE : Option ℚ) ≠ allRequested.crossTrackDistance := by
  decide!

/-- C4 (amended): when `getRouteDistances` fails, the slots `distFromStart`, `distToDest`,
`nearestLegDistance` and `nearestLegIndex` hold exactly the values they held before the
call, also when all of them were requested; the `crossTrackDistance` slot, when requested,
holds the sentinel `INVALID_VALUE`, and stays absent when not requested. -/
theorem getRouteDistances_failure_frame (g : Geo Pos) (legs : List (RouteMapObject Pos))
    (pos : Pos) (out out' : Outputs)
    (h : getRouteDistances g legs pos out = some (false, out')) :
    out'.distFromStartNm = out.distFromStartNm ∧
      out'.distToDestNm = out.distToDestNm ∧
      out'.nearestLegDistance = out.nearestLegDistance ∧
      out'.nearestLegIndex = out.nearestLegIndex ∧
      out'.crossTrackDistance = out.crossTrackDistance.map fun _ => INVALID_VALUE := by
  obtain ⟨s, _, hc | ⟨_, _, leg, _, hc⟩⟩ := getRouteDistances_cases g legs pos out
  · rw [hc.2] at h
    simp only [Option.some.injEq, Prod.mk.injEq, true_and] at h
    subst h
    exact ⟨rfl, rfl, rfl, rfl, rfl⟩
  · rw [hc] at h
    simp at h

/-- Witness for C4 (amended): a single leg that cannot be measured against. -/
theorem getRouteDistances_failure_frame_witness :
    (⟨some 0, some 0, some 0, some INVALID_VALUE, some 0⟩ : Outputs).distFromStartNm =
        allRequested.distFromStartNm ∧
      (⟨some 0, some 0, some 0, some INVALID_VALUE, some 0⟩ : Outputs).distToDestNm =
        allRequested.distToDestNm ∧
      (⟨some 0, some 0, some 0, some INVALID_VALUE, some 0⟩ : Outputs).nearestLegDistance =
        allRequested.nearestLegDistance ∧
      (⟨some 0, some 0, some 0, some INVALID_VALUE, some 0⟩ : Outputs).nearestLegIndex =
        allRequested.nearestLegIndex ∧
      (⟨some 0, some 0, some 0, some INVALID_VALUE, some 0⟩ : Outputs).crossTrackDistance =
        allRequested.crossTrackDistance.map fun _ => INVALID_VALUE :=
  getRouteDistances_failure_frame unreachableGeo [⟨(), 0⟩] () allRequested
    ⟨some 0, some 0, some 0, some INVALID_VALUE, some 0⟩ (by decide!)

/-- C5: on success, the `nearestLegIndex` reported by `getRouteDistances` equals
`min(k, N - 1)`, where `k` is the result of `getNearestLegIndex` and `N` the sequence
length; it is a valid index in `[0, N - 1]`. -/
theorem getRouteDistances_nearestLegIndex (g : Geo Pos) (legs : List (RouteMapObject Pos))
    (pos : Pos) (out out' : Outputs) (ct : Option ℚ) (old : Int)
    (h : getRouteDistances g legs pos out = some (true, out'))
    (hreq : out.nearestLegIndex = some old) :
    ∃ k slot, getNearestLegIndex g legs pos ct = some (k, slot) ∧
      out'.nearestLegIndex = some (min k (size legs - 1)) ∧
      0 ≤ min k (size legs - 1) ∧ min k (size legs - 1) ≤ size legs - 1 := by
  obtain ⟨s, leg, hs, h1, h2, _, rfl⟩ := getRouteDistances_true_inv g legs pos out out' h
  refine ⟨s.nearest, _, getNearestLegIndex_of_scan g legs pos ct s hs, ?_, ?_, min_le_right _ _⟩
  · simp [hreq, clampedIndex]
  · exact le_min (by omega) (by omega)

/-- Witness for C5: the sample route queried 926 m after its first leg. -/
theorem getRouteDistances_nearestLegIndex_witness :
    ∃ k slot, getNearestLegIndex trackGeo sampleRoute 926 none = some (k, slot) ∧
      (⟨some (1 / 2), some (3 / 2), some (1 / 2), some 0, some 1⟩ :
        Outputs).nearestLegIndex = some (min k (size sampleRoute - 1)) ∧
      0 ≤ min k (size sampleRoute - 1) ∧ min k (size sampleRoute - 1) ≤ size sampleRoute - 1 :=
  getRouteDistances_nearestLegIndex trackGeo sampleRoute 926 allRequested
    ⟨some (1 / 2), some (3 / 2), some (1 / 2), some 0, some 1⟩ none 0
    (by decide!) (by decide!)

/-- C6: on success, the `nearestLegDistance` reported by `getRouteDistances` is the point
distance between the query position and the position of the leg at the clamped index,
converted from meters to nautical miles. -/
theorem getRouteDistances_nearestLegDistance (g : Geo Pos) (legs : List (RouteMapObject Pos))
    (pos : Pos) (out out' : Outputs) (ct : Option ℚ) (old : ℚ)
    (h : getRouteDistances g legs pos out = some (true, out'))
    (hreq : out.nearestLegDistance = some old) :
    ∃ k slot leg, getNearestLegIndex g legs pos ct = some (k, slot) ∧
      legs[(min k (size legs - 1)).toNat]? = some leg ∧
      out'.nearestLegDistance = some (g.meterToNm (g.distanceMeterTo leg.position pos)) := by
  obtain ⟨s, leg, hs, h1, h2, hleg, rfl⟩ := getRouteDistances_true_inv g legs pos out out' h
  refine ⟨s.nearest, _, leg, getNearestLegIndex_of_scan g legs pos ct s hs, hleg, ?_⟩
  simp [hreq]

/-- Witness for C6: the sample route queried 926 m after its first leg. -/
theorem getRouteDistances_nearestLegDistance_witness :
    ∃ k slot leg, getNearestLegIndex trackGeo sampleRoute 926 none = some (k, slot) ∧
      sampleRoute[(min k (size sampleRoute - 1)).toNat]? = some leg ∧
      (⟨some (1 / 2), some (3 / 2), some (1 / 2), some 0, some 1⟩ :
        Outputs).nearestLegDistance =
        some (trackGeo.meterToNm (trackGeo.distanceMeterTo leg.position 926)) :=
  getRouteDistances_nearestLegDistance trackGeo sampleRoute 926 allRequested
    ⟨some (1 / 2), some (3 / 2), some (1 / 2), some 0, some 1⟩ none 0
    (by decide!) (by decide!)

/-- C7 (counterexample): leg distances 0, 2^24 and 1, queried on the last leg, so that
`nearestLegDistance` is 0. The sum of the three leg distances is 16777217, but
`distFromStart` is 16777216: the `float` addition of 1 to 2^24 is rounded. -/
theorem getRouteDistances_distFromStart_rounds :
    getRouteDistances trackGeo carryRoute 3704 allRequested =
        some (true, ⟨some 16777216, some 0, some 0, some 0, some 2⟩) ∧
      |sumDistanceTo (carryRoute.take 3) - 0| = 16777217 ∧
      (16777216 : ℚ) ≠ 16777217 := by
  decide!

/-- C7 (amended): on success, `distFromStart` reported by `getRouteDistances` equals the
absolute value of the `float` difference of the sum of `distanceTo` over legs 0 through the
clamped index inclusive, accumulated in index order with `float` additions, and
`nearestLegDistance` (the value also written to the `nearestLegDistance` slot); every
addition and the subtraction is rounded to binary32. It equals the absolute value of the
exact sum minus `nearestLegDistance` whenever the accumulated sum and the subtraction are
exact. -/
theorem getRouteDistances_distFromStart (g : Geo Pos) (legs : List (RouteMapObject Pos))
    (pos : Pos) (out out' : Outputs) (ct : Option ℚ) (old : ℚ)
    (h : getRouteDistances g legs pos out = some (true, out'))
    (hreq : out.distFromStartNm = some old) :
    ∃ k slot leg, getNearestLegIndex g legs pos ct = some (k, slot) ∧
      legs[(min k (size legs - 1)).toNat]? = some leg ∧
      out'.distFromStartNm = some
        |floatSub (floatSum (legs.take ((min k (size legs - 1)).toNat + 1)))
          (g.meterToNm (g.distanceMeterTo leg.position pos))| ∧
      (∀ old', out.nearestLegDistance = some old' →
        out'.nearestLegDistance = some (g.meterToNm (g.distanceMeterTo leg.position pos))) ∧
      (floatSum (legs.take ((min k (size legs - 1)).toNat + 1)) =
          sumDistanceTo (legs.take ((min k (size legs - 1)).toNat + 1)) →
        floatSub (sumDistanceTo (legs.take ((min k (size legs - 1)).toNat + 1)))
            (g.meterToNm (g.distanceMeterTo leg.position pos)) =
          sumDistanceTo (legs.take ((min k (size legs - 1)).toNat + 1)) -
            g.meterToNm (g.distanceMeterTo leg.position pos) →
        out'.distFromStartNm = some
          |sumDistanceTo (legs.take ((min k (size legs - 1)).toNat + 1)) -
            g.meterToNm (g.distanceMeterTo leg.position pos)|) := by
  obtain ⟨s, leg, hs, h1, h2, hleg, rfl⟩ := getRouteDistances_true_inv g legs pos out out' h
  have hclamp : min s.nearest (size legs - 1) = clampedIndex legs s.nearest := rfl
  refine ⟨s.nearest, _, leg, getNearestLegIndex_of_scan g legs pos ct s hs, hleg, ?_, ?_, ?_⟩
  · simp only [hreq, Option.map_some', hclamp]
  · intro old' h'
    simp [h']
  · intro hsum hsub
    simp only [hreq, Option.map_some', hclamp]
    rw [hclamp] at hsum hsub
    rw [hsum, hsub]

/-- Witness for C7 (amended): the sample route queried 926 m after its first leg. -/
theorem getRouteDistances_distFromStart_witness :
    ∃ k slot leg, getNearestLegIndex trackGeo sampleRoute 926 none = some (k, slot) ∧
      sampleRoute[(min k (size sampleRoute - 1)).toNat]? = some leg ∧
      (⟨some (1 / 2), some (3 / 2), some (1 / 2), some 0, some 1⟩ :
        Outputs).distFromStartNm = some
        |floatSub (floatSum (sampleRoute.take ((min k (size sampleRoute - 1)).toNat + 1)))
          (trackGeo.meterToNm (trackGeo.distanceMeterTo leg.position 926))| ∧
      (∀ old', allRequested.nearestLegDistance = some old' →
        (⟨some (1 / 2), some (3 / 2), some (1 / 2), some 0, some 1⟩ :
          Outputs).nearestLegDistance =
          some (trackGeo.meterToNm (trackGeo.distanceMeterTo leg.position 926))) ∧
      (floatSum (sampleRoute.take ((min k (size sampleRoute - 1)).toNat + 1)) =
          sumDistanceTo (sampleRoute.take ((min k (size sampleRoute - 1)).toNat + 1)) →
        floatSub (sumDistanceTo (sampleRoute.take ((min k (size sampleRoute - 1)).toNat + 1)))
            (trackGeo.meterToNm (trackGeo.distanceMeterTo leg.position 926)) =
          sumDistanceTo (sampleRoute.take ((min k (size sampleRoute - 1)).toNat + 1)) -
            trackGeo.meterToNm (trackGeo.distanceMeterTo leg.position 926) →
        (⟨some (1 / 2), some (3 / 2), some (1 / 2), some 0, some 1⟩ :
          Outputs).distFromStartNm = some
          |sumDistanceTo (sampleRoute.take ((min k (size sampleRoute - 1)).toNat + 1)) -
            trackGeo.meterToNm (trackGeo.distanceMeterTo leg.position 926)|) :=
  getRouteDistances_distFromStart trackGeo sampleRoute 926 allRequested
    ⟨some (1 / 2), some (3 / 2), some (1 / 2), some 0, some 1⟩ none 0
    (by decide!) (by decide!)

/-- C8 (counterexample): leg distances 0, 1, 2^24 and 1, queried on leg 1, so that
`nearestLegDistance` is 0: the sum over legs 2 and 3 is 16777217, but `distToDest` is
16777216, the `float` addition of 1 to 2^24 being rounded. And a route of one leg with an
engine that reports the signed distance -1: the clamped index is the last leg and
`distToDest` is 1, not `nearestLegDistance`, which is -1. -/
theorem getRouteDistances_distToDest_values :
    getRouteDistances trackGeo tailCarryRoute 1852 allRequested =
        some (true, ⟨some 1, some 16777216, some 0, some 0, some 1⟩) ∧
      |sumDistanceTo (tailCarryRoute.drop 2) + 0| = 16777217 ∧
      (16777216 : ℚ) ≠ 16777217 ∧
      getRouteDistances signedGeo singleLegRoute 1852 allRequested =
        some (true, ⟨some 1, some 1, some (-1), some INVALID_VALUE, some 0⟩) ∧
      (1 : ℚ) ≠ -1 := by
  decide!

/-- C8 (amended): on success, `distToDest` reported by `getRouteDistances` equals the
absolute value of the `float` sum of `nearestLegDistance` and the sum of `distanceTo` over
legs `clampedIndex + 1` through `N - 1`, accumulated in index order with `float`
additions; every addition is rounded to binary32. It equals the absolute value of the exact
sum plus `nearestLegDistance` whenever the accumulated sum and the last addition are exact.
When the clamped index is the last leg the sum is empty and `distToDest` equals the
absolute value of `nearestLegDistance`, a binary32 value, hence `nearestLegDistance` itself
when that is not negative. -/
theorem getRouteDistances_distToDest (g : Geo Pos) (legs : List (RouteMapObject Pos))
    (pos : Pos) (out out' : Outputs) (ct : Option ℚ) (old : ℚ)
    (h : getRouteDistances g legs pos out = some (true, out'))
    (hreq : out.distToDestNm = some old) :
    ∃ k slot leg, getNearestLegIndex g legs pos ct = some (k, slot) ∧
      legs[(min k (size legs - 1)).toNat]? = some leg ∧
      out'.distToDestNm = some
        |floatAdd (floatSum (legs.drop ((min k (size legs - 1)).toNat + 1)))
          (g.meterToNm (g.distanceMeterTo leg.position pos))| ∧
      (∀ old', out.nearestLegDistance = some old' →
        out'.nearestLegDistance = some (g.meterToNm (g.distanceMeterTo leg.position pos))) ∧
      (floatSum (legs.drop ((min k (size legs - 1)).toNat + 1)) =
          sumDistanceTo (legs.drop ((min k (size legs - 1)).toNat + 1)) →
        floatAdd (sumDistanceTo (legs.drop ((min k (size legs - 1)).toNat + 1)))
            (g.meterToNm (g.distanceMeterTo leg.position pos)) =
          sumDistanceTo (legs.drop ((min k (size legs - 1)).toNat + 1)) +
            g.meterToNm (g.distanceMeterTo leg.position pos) →
        out'.distToDestNm = some
          |sumDistanceTo (legs.drop ((min k (size legs - 1)).toNat + 1)) +
            g.meterToNm (g.distanceMeterTo leg.position pos)|) ∧
      (min k (size legs - 1) = size legs - 1 →
        legs.drop ((min k (size legs - 1)).toNat + 1) = [] ∧
        (roundF32 (g.meterToNm (g.distanceMeterTo leg.position pos)) =
            g.meterToNm (g.distanceMeterTo leg.position pos) →
          out'.distToDestNm = some |g.meterToNm (g.distanceMeterTo leg.position pos)| ∧
          (0 ≤ g.meterToNm (g.distanceMeterTo leg.position pos) →
            out'.distToDestNm =
              some (g.meterToNm (g.distanceMeterTo leg.position pos))))) := by
  obtain ⟨s, leg, hs, h1, h2, hleg, rfl⟩ := getRouteDistances_true_inv g legs pos out out' h
  have hclamp : min s.nearest (size legs - 1) = clampedIndex legs s.nearest := rfl
  refine ⟨s.nearest, _, leg, getNearestLegIndex_of_scan g legs pos ct s hs, hleg,
    ?_, ?_, ?_, ?_⟩
  · simp only [hreq, Option.map_some', hclamp]
  · intro old' h'
    simp [h']
  · intro hsum hadd
    simp only [hreq, Option.map_some', hclamp]
    rw [hclamp] at hsum hadd
    rw [hsum, hadd]
  · intro hlast
    have hnil : legs.drop ((min s.nearest (size legs - 1)).toNat + 1) = [] := by
      apply List.drop_eq_nil_of_le
      rw [hlast]
      unfold size
      omega
    refine ⟨hnil, fun hfloat => ?_⟩
    have hval : floatAdd (floatSum (legs.drop ((clampedIndex legs s.nearest).toNat + 1)))
        (g.meterToNm (g.distanceMeterTo leg.position pos)) =
        g.meterToNm (g.distanceMeterTo leg.position pos) := by
      rw [hclamp] at hnil
      rw [hnil]
      unfold floatSum floatAdd
      rw [List.foldl_nil, zero_add, hfloat]
    refine ⟨?_, fun hc => ?_⟩
    · simp only [hreq, Option.map_some', hval]
    · simp only [hreq, Option.map_some', hval, abs_of_nonneg hc]

/-- Witness for C8 (amended): the sample route queried 926 m after its first leg. -/
theorem getRouteDistances_distToDest_witness :
    ∃ k slot leg, getNearestLegIndex trackGeo sampleRoute 926 none = some (k, slot) ∧
      sampleRoute[(min k (size sampleRoute - 1)).toNat]? = some leg ∧
      (⟨some (1 / 2), some (3 / 2), some (1 / 2), some 0, some 1⟩ :
        Outputs).distToDestNm = some
        |floatAdd (floatSum (sampleRoute.drop ((min k (size sampleRoute - 1)).toNat + 1)))
          (trackGeo.meterToNm (trackGeo.distanceMeterTo leg.position 926))| ∧
      (∀ old', allRequested.nearestLegDistance = some old' →
        (⟨some (1 / 2), some (3 / 2), some (1 / 2), some 0, some 1⟩ :
          Outputs).nearestLegDistance =
          some (trackGeo.meterToNm (trackGeo.distanceMeterTo leg.position 926))) ∧
      (floatSum (sampleRoute.drop ((min k (size sampleRoute - 1)).toNat + 1)) =
          sumDistanceTo (sampleRoute.drop ((min k (size sampleRoute - 1)).toNat + 1)) →
        floatAdd (sumDistanceTo (sampleRoute.drop ((min k (size sampleRoute - 1)).toNat + 1)))
            (trackGeo.meterToNm (trackGeo.distanceMeterTo leg.position 926)) =
          sumDistanceTo (sampleRoute.drop ((min k (size sampleRoute - 1)).toNat + 1)) +
            trackGeo.meterToNm (trackGeo.distanceMeterTo leg.position 926) →
        (⟨some (1 / 2), some (3 / 2), some (1 / 2), some 0, some 1⟩ :
          Outputs).distToDestNm = some
          |sumDistanceTo (sampleRoute.drop ((min k (size sampleRoute - 1)).toNat + 1)) +
            trackGeo.meterToNm (trackGeo.distanceMeterTo leg.position 926)|) ∧
      (min k (size sampleRoute - 1) = size sampleRoute - 1 →
        sampleRoute.drop ((min k (size sampleRoute - 1)).toNat + 1) = [] ∧
        (roundF32 (trackGeo.meterToNm (trackGeo.distanceMeterTo leg.position 926)) =
            trackGeo.meterToNm (trackGeo.distanceMeterTo leg.position 926) →
          (⟨some (1 / 2), some (3 / 2), some (1 / 2), some 0, some 1⟩ :
            Outputs).distToDestNm =
              some |trackGeo.meterToNm (trackGeo.distanceMeterTo leg.position 926)| ∧
          (0 ≤ trackGeo.meterToNm (trackGeo.distanceMeterTo leg.position 926) →
            (⟨some (1 / 2), some (3 / 2), some (1 / 2), some 0, some 1⟩ :
              Outputs).distToDestNm =
              some (trackGeo.meterToNm (trackGeo.distanceMeterTo leg.position 926))))) :=
  getRouteDistances_distToDest trackGeo sampleRoute 926 allRequested
    ⟨some (1 / 2), some (3 / 2), some (1 / 2), some 0, some 1⟩ none 0
    (by decide!) (by decide!)

/-- C9: for every leg sequence (with leg distances of any sign) and every query position
on which `getRouteDistances` succeeds, both `distFromStart` and `distToDest` are
non-negative. -/
theorem getRouteDistances_nonneg (g : Geo Pos) (legs : List (RouteMapObject Pos))
    (pos : Pos) (out out' : Outputs)
    (h : getRouteDistances g legs pos out = some (true, out')) :
    (∀ old, out.distFromStartNm = some old → ∃ v, out'.distFromStartNm = some v ∧ 0 ≤ v) ∧
      (∀ old, out.distToDestNm = some old → ∃ v, out'.distToDestNm = some v ∧ 0 ≤ v) := by
  obtain ⟨s, leg, hs, h1, h2, hleg, rfl⟩ := getRouteDistances_true_inv g legs pos out out' h
  constructor
  · intro old hreq
    refine ⟨|floatSub (floatSum (legs.take ((clampedIndex legs s.nearest).toNat + 1)))
      (g.meterToNm (g.distanceMeterTo leg.position pos))|, ?_, abs_nonneg _⟩
    simp only [hreq, Option.map_some']
  · intro old hreq
    refine ⟨|floatAdd (floatSum (legs.drop ((clampedIndex legs s.nearest).toNat + 1)))
      (g.meterToNm (g.distanceMeterTo leg.position pos))|, ?_, abs_nonneg _⟩
    simp only [hreq, Option.map_some']

/-- Witness for C9: the sample route queried 926 m after its first leg. -/
theorem getRouteDistances_nonneg_witness :
    (∀ old, allRequested.distFromStartNm = some old →
        ∃ v, (⟨some (1 / 2), some (3 / 2), some (1 / 2), some 0, some 1⟩ :
          Outputs).distFromStartNm = some v ∧ 0 ≤ v) ∧
      (∀ old, allRequested.distToDestNm = some old →
        ∃ v, (⟨some (1 / 2), some (3 / 2), some (1 / 2), some 0, some 1⟩ :
          Outputs).distToDestNm = some v ∧ 0 ≤ v) :=
  getRouteDistances_nonneg trackGeo sampleRoute 926 allRequested
    ⟨some (1 / 2), some (3 / 2), some (1 / 2), some 0, some 1⟩ (by decide!)

theorem crossTrackAt_of_lt (g : Geo Pos) (legs : List (RouteMapObject Pos)) (pos : Pos)
    (j : Nat) (h : j + 1 < legs.length) :
    crossTrackAt g legs pos j =
      some (g.distanceMeterToLine pos (legs[j]).position (legs[j + 1]).position) := by
  unfold crossTrackAt
  rw [List.getElem?_eq_getElem (by omega), List.getElem?_eq_getElem h]

theorem crossTrackAt_lt (g : Geo Pos) (legs : List (RouteMapObject Pos)) (pos : Pos)
    (j : Nat) (r : ℚ × Bool) (h : crossTrackAt g legs pos j = some r) :
    j + 1 < legs.length := by
  unfold crossTrackAt at h
  by_contra hlt
  have hnone : legs[j + 1]? = none := List.getElem?_eq_none (by omega)
  rw [hnone] at h
  cases hj : legs[j]? <;> simp [hj] at h

theorem pointDistanceAt_of_lt (g : Geo Pos) (legs : List (RouteMapObject Pos)) (pos : Pos)
    (j : Nat) (h : j < legs.length) :
    pointDistanceAt g legs pos j = some (g.distanceMeterTo (legs[j]).position pos) := by
  unfold pointDistanceAt
  rw [List.getElem?_eq_getElem h]
  rfl

theorem pointDistanceAt_lt (g : Geo Pos) (legs : List (RouteMapObject Pos)) (pos : Pos)
    (j : Nat) (d : ℚ) (h : pointDistanceAt g legs pos j = some d) : j < legs.length := by
  unfold pointDistanceAt at h
  by_contra hlt
  have hnone : legs[j]? = none := List.getElem?_eq_none (by omega)
  rw [hnone] at h
  simp at h

/-- One iteration of the first loop preserves its invariant. -/
theorem segInv_step (g : Geo Pos) (legs : List (RouteMapObject Pos)) (pos : Pos) (k : Nat)
    (s : Nearest) (r : ℚ × Bool) (hr : crossTrackAt g legs pos k = some r)
    (hI : SegInv g legs pos k s) :
    SegInv g legs pos (k + 1)
      (if r.2 = true ∧ |r.1| < s.minDistance then
        { nearest := 1 + (k : Int), minDistance := |r.1|, minCrossTrack := r.1 } else s) := by
  obtain ⟨hA, hB, hW⟩ := hI
  by_cases hc : r.2 = true ∧ |r.1| < s.minDistance
  · rw [if_pos hc]
    have hr' : crossTrackAt g legs pos k = some (r.1, true) := by
      rw [hr, ← hc.1]
    refine ⟨le_of_lt (lt_of_lt_of_le hc.2 hA), ?_, Or.inr ⟨k, r.1, Nat.lt_succ_self k, ?_⟩⟩
    · intro j x hj hx
      by_cases hjk : j < k
      · exact le_of_lt (lt_of_lt_of_le hc.2 (hB j x hjk hx))
      · have hjk2 : j = k := by omega
        subst hjk2
        rw [hr'] at hx
        simp only [Option.some.injEq, Prod.mk.injEq, and_true] at hx
        rw [hx]
    · exact ⟨by show (1 : Int) + (k : Int) = (k : Int) + 1; omega, hr', rfl, rfl,
        lt_of_lt_of_le hc.2 hA, fun j' x' hj' hx' => lt_of_lt_of_le hc.2 (hB j' x' hj' hx')⟩
  · rw [if_neg hc]
    refine ⟨hA, ?_, ?_⟩
    · intro j x hj hx
      by_cases hjk : j < k
      · exact hB j x hjk hx
      · have hjk2 : j = k := by omega
        subst hjk2
        rw [hr] at hx
        simp only [Option.some.injEq] at hx
        have h1 : r.1 = x := by rw [hx]
        have h2 : r.2 = true := by rw [hx]
        rw [← h1]
        exact not_lt.mp fun hlt => hc ⟨h2, hlt⟩
    · rcases hW with hW | ⟨j, x, hj, hW⟩
      · exact Or.inl hW
      · exact Or.inr ⟨j, x, Nat.lt_succ_of_lt hj, hW⟩

/-- The first loop does not abort; afterwards the locals are at most every valid segment
and are the initial ones or record the first segment with the least distance. -/
theorem segmentLoop_winner (g : Geo Pos) (legs : List (RouteMapObject Pos)) (pos : Pos) :
    ∃ s, forLoop 1 (size legs) (segmentBody g legs pos)
        { nearest := -1, minDistance := FLT_MAX, minCrossTrack := FLT_MAX } = some s ∧
      SegInv g legs pos (legs.length - 1) s := by
  obtain ⟨s, hs, hI⟩ := forLoop_inv 1 (size legs) (segmentBody g legs pos)
    (fun k s => SegInv g legs pos k s)
    { nearest := -1, minDistance := FLT_MAX, minCrossTrack := FLT_MAX }
    ⟨le_refl _, fun j x hj _ => absurd hj (Nat.not_lt_zero j), Or.inl ⟨rfl, rfl, rfl⟩⟩
    (by
      intro k s hk hI
      have hk1 : k + 1 < legs.length := by
        unfold size at hk
        omega
      have ha : legAt legs (1 + (k : Int) - 1) = some legs[k] := by
        have : (1 : Int) + (k : Int) - 1 = ((k : Nat) : Int) := by omega
        rw [this, legAt_natCast]
        exact List.getElem?_eq_getElem (by omega)
      have hb : legAt legs (1 + (k : Int)) = some legs[k + 1] := by
        have : (1 : Int) + (k : Int) = ((k + 1 : Nat) : Int) := by omega
        rw [this, legAt_natCast]
        exact List.getElem?_eq_getElem hk1
      exact ⟨_, segmentBody_of_legs g legs pos s _ _ _ ha hb,
        segInv_step g legs pos k s _ (crossTrackAt_of_lt g legs pos k hk1) hI⟩)
  refine ⟨s, hs, ?_⟩
  have hn : (size legs - 1).toNat = legs.length - 1 := by
    unfold size
    omega
  rw [hn] at hI
  exact hI

/-- One iteration of the second loop preserves its invariant. -/
theorem vertInv_step (g : Geo Pos) (legs : List (RouteMapObject Pos)) (pos : Pos) (k : Nat)
    (s : Nearest) (d : ℚ) (hd : pointDistanceAt g legs pos k = some d)
    (hI : VertInv g legs pos k s) :
    VertInv g legs pos (k + 1)
      (if True ∧ d < s.minDistance then
        { nearest := 0 + (k : Int) + 1, minDistance := d, minCrossTrack := INVALID_VALUE }
      else s) := by
  obtain ⟨hA, hB, hC, hW⟩ := hI
  by_cases hc : True ∧ d < s.minDistance
  · rw [if_pos hc]
    refine ⟨le_of_lt (lt_of_lt_of_le hc.2 hA),
      fun j x hx => le_of_lt (lt_of_lt_of_le hc.2 (hB j x hx)), ?_,
      Or.inr (Or.inr ⟨k, d, Nat.lt_succ_self k, ?_⟩)⟩
    · intro j d' hj hd'
      by_cases hjk : j < k
      · exact le_of_lt (lt_of_lt_of_le hc.2 (hC j d' hjk hd'))
      · have hjk2 : j = k := by omega
        subst hjk2
        rw [hd] at hd'
        simp only [Option.some.injEq] at hd'
        rw [hd']
    · exact ⟨by show (0 : Int) + (k : Int) + 1 = (k : Int) + 1; omega, hd, rfl, rfl,
        lt_of_lt_of_le hc.2 hA, fun j' x' hx' => lt_of_lt_of_le hc.2 (hB j' x' hx'),
        fun j' d' hj' hd' => lt_of_lt_of_le hc.2 (hC j' d' hj' hd')⟩
  · rw [if_neg hc]
    refine ⟨hA, hB, ?_, ?_⟩
    · intro j d' hj hd'
      by_cases hjk : j < k
      · exact hC j d' hjk hd'
      · have hjk2 : j = k := by omega
        subst hjk2
        rw [hd] at hd'
        simp only [Option.some.injEq] at hd'
        rw [← hd']
        exact not_lt.mp fun hlt => hc ⟨trivial, hlt⟩
    · rcases hW with hW | hW | ⟨j, d', hj, hW⟩
      · exact Or.inl hW
      · exact Or.inr (Or.inl hW)
      · exact Or.inr (Or.inr ⟨j, d', Nat.lt_succ_of_lt hj, hW⟩)

/-- The second loop does not abort and extends the invariant to all leg positions. -/
theorem vertexLoop_winner (g : Geo Pos) (legs : List (RouteMapObject Pos)) (pos : Pos)
    (s0 : Nearest) (h0 : SegInv g legs pos (legs.length - 1) s0) :
    ∃ s, forLoop 0 (size legs) (vertexBody g legs pos) s0 = some s ∧
      ScanSpec g legs pos s := by
  obtain ⟨hA, hB, hW⟩ := h0
  have hlt : ∀ j (r : ℚ × Bool), crossTrackAt g legs pos j = some r → j < legs.length - 1 := by
    intro j r hr
    have := crossTrackAt_lt g legs pos j r hr
    omega
  obtain ⟨s, hs, hI⟩ := forLoop_inv 0 (size legs) (vertexBody g legs pos)
    (fun k s => VertInv g legs pos k s) s0
    ⟨hA, fun j x hx => hB j x (hlt j _ hx) hx, fun j d hj _ => absurd hj (Nat.not_lt_zero j),
      hW.elim Or.inl fun ⟨j, x, _, h⟩ => Or.inr (Or.inl ⟨j, x, h⟩)⟩
    (by
      intro k s hk hI
      have hk1 : k < legs.length := by
        unfold size at hk
        omega
      have ha : legAt legs (0 + (k : Int)) = some legs[k] := by
        rw [zero_add, legAt_natCast]
        exact List.getElem?_eq_getElem hk1
      exact ⟨_, vertexBody_of_leg g legs pos s _ _ ha,
        vertInv_step g legs pos k s _ (pointDistanceAt_of_lt g legs pos k hk1) hI⟩)
  obtain ⟨hA', hB', hC', hW'⟩ := hI
  have hn : (size legs - 0).toNat = legs.length := by
    unfold size
    omega
  rw [hn] at hC' hW'
  refine ⟨s, hs, hA', hB', fun j d hd => hC' j d (pointDistanceAt_lt g legs pos j d hd) hd, ?_⟩
  rcases hW' with hW' | hW' | ⟨j, d, _, hW'⟩
  · exact Or.inl hW'
  · exact Or.inr (Or.inl hW')
  · exact Or.inr (Or.inr ⟨j, d, hW'⟩)

/-- Both loops of `getNearestLegIndex` run to completion and the final locals satisfy
`ScanSpec`. -/
theorem nearestScan_winner (g : Geo Pos) (legs : List (RouteMapObject Pos)) (pos : Pos) :
    ∃ s, nearestScan g legs pos = some s ∧ ScanSpec g legs pos s := by
  obtain ⟨s1, hs1, hI1⟩ := segmentLoop_winner g legs pos
  obtain ⟨s2, hs2, hI2⟩ := vertexLoop_winner g legs pos s1 hI1
  refine ⟨s2, ?_, hI2⟩
  unfold nearestScan
  rw [hs1, Option.some_bind, hs2]

theorem FLT_MAX_pos : (0 : ℚ) < FLT_MAX := by
  unfold FLT_MAX
  norm_num

theorem writeCrossTrack_segment (g : Geo Pos) (x : ℚ) (ct : Option ℚ) (hx : |x| < FLT_MAX) :
    writeCrossTrack g x ct = ct.map fun _ => g.meterToNm x := by
  have hne : x ≠ INVALID_VALUE := by
    unfold INVALID_VALUE
    exact ne_of_lt (lt_of_le_of_lt (le_abs_self x) hx)
  cases ct <;> simp [writeCrossTrack, hne]

theorem writeCrossTrack_invalid (g : Geo Pos) (ct : Option ℚ) :
    writeCrossTrack g INVALID_VALUE ct = ct.map fun _ => INVALID_VALUE := by
  cases ct <;> simp [writeCrossTrack]

/-! ## Further claims on `getNearestLegIndex` -/

/-- C11: `getNearestLegIndex` resolves to the globally closest candidate. Whenever it returns
`k ≠ -1`, the distance `d` of the winning candidate (the absolute cross-track distance of
segment `(k - 1, k)` if a segment won, the point distance of leg `k - 1` if a leg position
won) is at most the absolute cross-track distance of every segment with a valid projection
and at most the point distance of every leg position. -/
theorem getNearestLegIndex_closest (g : Geo Pos) (legs : List (RouteMapObject Pos)) (pos : Pos)
    (ct : Option ℚ) :
    ∃ k slot, getNearestLegIndex g legs pos ct = some (k, slot) ∧
      (k ≠ -1 → ∃ d,
        ((∃ (j : Nat) (x : ℚ), k = (j : Int) + 1 ∧ crossTrackAt g legs pos j = some (x, true) ∧ d = |x| ∧
            slot = ct.map fun _ => g.meterToNm x) ∨
          (∃ j : Nat, k = (j : Int) + 1 ∧ pointDistanceAt g legs pos j = some d ∧
            slot = ct.map fun _ => INVALID_VALUE)) ∧
        (∀ j x, crossTrackAt g legs pos j = some (x, true) → d ≤ |x|) ∧
        (∀ j d', pointDistanceAt g legs pos j = some d' → d ≤ d')) := by
  obtain ⟨s, hs, _, hB, hC, hW⟩ := nearestScan_winner g legs pos
  refine ⟨s.nearest, _, getNearestLegIndex_of_scan g legs pos ct s hs, fun hk => ?_⟩
  refine ⟨s.minDistance, ?_, hB, hC⟩
  rcases hW with hW | ⟨j, x, hn, hx, hm, hmc, hlt, _⟩ | ⟨j, d, hn, hd, hm, hmc, _⟩
  · exact absurd hW.1 hk
  · left
    refine ⟨j, x, hn, hx, hm, ?_⟩
    rw [hmc, writeCrossTrack_segment g x ct hlt]
  · right
    refine ⟨j, hn, by rw [hm]; exact hd, ?_⟩
    rw [hmc, writeCrossTrack_invalid]

/-- C12: whenever the cross-track output of `getNearestLegIndex` is not the sentinel
`INVALID_VALUE`, the returned index `k` satisfies `1 ≤ k ≤ N - 1`, the projection onto
segment `(k - 1, k)` is valid, and the output is the signed cross-track distance of that
segment converted from meters to nautical miles. -/
theorem getNearestLegIndex_crossTrack (g : Geo Pos) (legs : List (RouteMapObject Pos))
    (pos : Pos) (old : ℚ) (k : Int) (v : ℚ)
    (h : getNearestLegIndex g legs pos (some old) = some (k, some v))
    (hv : v ≠ INVALID_VALUE) :
    1 ≤ k ∧ k ≤ size legs - 1 ∧
      ∃ (j : Nat) (x : ℚ), k = (j : Int) + 1 ∧ crossTrackAt g legs pos j = some (x, true) ∧
        v = g.meterToNm x := by
  obtain ⟨s, hs, _, _, _, hW⟩ := nearestScan_winner g legs pos
  rw [getNearestLegIndex_of_scan g legs pos _ s hs] at h
  simp only [Option.some.injEq, Prod.mk.injEq] at h
  obtain ⟨hk, hslot⟩ := h
  rcases hW with ⟨_, _, hmc⟩ | ⟨j, x, hn, hx, _, hmc, hlt, _⟩ | ⟨j, d, _, _, _, hmc, _⟩
  · rw [hmc] at hslot
    have := writeCrossTrack_invalid g (some old)
    unfold INVALID_VALUE at this
    rw [this] at hslot
    simp only [Option.map_some', Option.some.injEq] at hslot
    exact absurd hslot.symm hv
  · rw [hmc, writeCrossTrack_segment g x _ hlt] at hslot
    simp only [Option.map_some', Option.some.injEq] at hslot
    have hj := crossTrackAt_lt g legs pos j _ hx
    refine ⟨by omega, ?_, j, x, by omega, hx, hslot.symm⟩
    unfold size
    omega
  · rw [hmc, writeCrossTrack_invalid] at hslot
    simp only [Option.map_some', Option.some.injEq] at hslot
    exact absurd hslot.symm hv

/-- Witness for C12: the route of `stripGeo` queried 500 m to the left of its first segment;
the output is negative. -/
theorem getNearestLegIndex_crossTrack_witness :
    (1 : Int) ≤ 1 ∧ (1 : Int) ≤ size stripRoute - 1 ∧
      ∃ (j : Nat) (x : ℚ), (1 : Int) = (j : Int) + 1 ∧
        crossTrackAt stripGeo stripRoute (1000, -500) j = some (x, true) ∧
        (-125 / 463 : ℚ) = stripGeo.meterToNm x :=
  getNearestLegIndex_crossTrack stripGeo stripRoute (1000, -500) 0 1 (-125 / 463)
    (by decide!) (by decide!)

theorem validSegmentsAll_spec (g : Geo Pos) (legs : List (RouteMapObject Pos)) (pos : Pos)
    (p : ℚ → Bool) (h : validSegmentsAll g legs pos p = true) (j : Nat) (x : ℚ)
    (hx : crossTrackAt g legs pos j = some (x, true)) : p x = true := by
  unfold validSegmentsAll at h
  rw [List.all_eq_true] at h
  have hj := crossTrackAt_lt g legs pos j _ hx
  have := h j (List.mem_range.mpr (by omega))
  rw [hx] at this
  exact this

theorem otherLegsAll_spec (g : Geo Pos) (legs : List (RouteMapObject Pos)) (pos : Pos)
    (i : Nat) (p : ℚ → Bool) (h : otherLegsAll g legs pos i p = true) (j : Nat) (d : ℚ)
    (hji : j ≠ i) (hd : pointDistanceAt g legs pos j = some d) : p d = true := by
  unfold otherLegsAll at h
  rw [List.all_eq_true] at h
  have hj := pointDistanceAt_lt g legs pos j d hd
  have := h j (List.mem_range.mpr hj)
  rw [hd] at this
  simpa [hji] using this

/-- C13: vertex proximity overrides a segment match. If the point distance from the query
position to leg `i` is below the reserved maximum value, strictly smaller than the absolute
cross-track distance of every segment with a valid projection, and strictly smaller than
the point distance to every other leg, then `getNearestLegIndex` returns `i + 1` and the
cross-track output is the sentinel `INVALID_VALUE`. -/
theorem getNearestLegIndex_vertex_override (g : Geo Pos) (legs : List (RouteMapObject Pos))
    (pos : Pos) (ct : Option ℚ) (i : Nat) (d : ℚ)
    (hd : pointDistanceAt g legs pos i = some d) (hmax : d < FLT_MAX)
    (hseg : ∀ j x, crossTrackAt g legs pos j = some (x, true) → d < |x|)
    (hvert : ∀ j d', j ≠ i → pointDistanceAt g legs pos j = some d' → d < d') :
    getNearestLegIndex g legs pos ct =
      some ((i : Int) + 1, ct.map fun _ => INVALID_VALUE) := by
  obtain ⟨s, hs, _, _, hC, hW⟩ := nearestScan_winner g legs pos
  rw [getNearestLegIndex_of_scan g legs pos ct s hs]
  have hmin : s.minDistance ≤ d := hC i d hd
  rcases hW with ⟨_, hm, _⟩ | ⟨j, x, _, hx, hm, _⟩ | ⟨j, d', hn, hd', hm, hmc, _⟩
  · rw [hm] at hmin
    exact absurd hmax (not_lt.mpr hmin)
  · rw [hm] at hmin
    exact absurd (hseg j x hx) (not_lt.mpr hmin)
  · have hji : j = i := by
      by_contra hne
      rw [hm] at hmin
      exact absurd (hvert j d' hne hd') (not_lt.mpr hmin)
    rw [hn, hmc, writeCrossTrack_invalid, hji]

/-- Witness for C13: a position 10 m from the second leg of `bentRoute`, abeam of its only
segment at a cross-track distance of 990 m. -/
theorem getNearestLegIndex_vertex_override_witness :
    getNearestLegIndex stripGeo bentRoute (1852, 10) (some 0) =
      some (((1 : Nat) : Int) + 1, (some 0 : Option ℚ).map fun _ => INVALID_VALUE) :=
  getNearestLegIndex_vertex_override stripGeo bentRoute (1852, 10) (some 0) 1 10
    (by decide!) (by decide!)
    (fun j x hx => of_decide_eq_true
      (validSegmentsAll_spec stripGeo bentRoute (1852, 10) (fun x => decide (10 < |x|))
        (by decide!) j x hx))
    (fun j d' hj hd' => of_decide_eq_true
      (otherLegsAll_spec stripGeo bentRoute (1852, 10) 1 (fun d' => decide (10 < d'))
        (by decide!) j d' hj hd'))

/-- C14: for every sequence of length 1 and every query position, `getNearestLegIndex`
returns either -1 or 1, any cross-track output is the sentinel, and when it returns 1
`getRouteDistances` succeeds and reports `nearestLegIndex` 0. -/
theorem single_leg_route (g : Geo Pos) (a : RouteMapObject Pos) (pos : Pos) (ct : Option ℚ)
    (out : Outputs) :
    ∃ k slot, getNearestLegIndex g [a] pos ct = some (k, slot) ∧
      (k = -1 ∨ k = 1) ∧ slot = ct.map (fun _ => INVALID_VALUE) ∧
      (k = 1 → ∃ out', getRouteDistances g [a] pos out = some (true, out') ∧
        out'.nearestLegIndex = out.nearestLegIndex.map fun _ => 0) := by
  obtain ⟨s, hs, _, _, _, hW⟩ := nearestScan_winner g [a] pos
  refine ⟨s.nearest, _, getNearestLegIndex_of_scan g [a] pos ct s hs, ?_, ?_, ?_⟩
  · rcases hW with hW | ⟨j, x, _, hx, _⟩ | ⟨j, d, hn, hd, _⟩
    · exact Or.inl hW.1
    · have := crossTrackAt_lt g [a] pos j _ hx
      simp at this
    · have hj := pointDistanceAt_lt g [a] pos j d hd
      have hj0 : j = 0 := by simpa using hj
      right
      rw [hn, hj0]
      rfl
  · rcases hW with ⟨_, _, hmc⟩ | ⟨j, x, _, hx, _⟩ | ⟨j, d, _, _, _, hmc, _⟩
    · rw [hmc]
      exact writeCrossTrack_invalid g ct
    · have := crossTrackAt_lt g [a] pos j _ hx
      simp at this
    · rw [hmc]
      exact writeCrossTrack_invalid g ct
  · intro hk
    obtain ⟨leg, _, hout⟩ := getRouteDistances_of_scan_pos g [a] pos out s hs
      (by omega) (by rw [hk]; simp [size])
    refine ⟨_, hout, ?_⟩
    have hclamp : clampedIndex [a] s.nearest = 0 := by
      rw [hk]
      simp [clampedIndex, size]
    rw [hclamp]

/-- C19: `getNearestLegIndex` never returns 0, its result is -1 or lies in `[1, N]`;
consequently, for every sequence of length `N ≥ 2`, the `nearestLegIndex` reported by
`getRouteDistances` is never 0. -/
theorem getNearestLegIndex_never_zero (g : Geo Pos) (legs : List (RouteMapObject Pos))
    (pos : Pos) (ct : Option ℚ) :
    (∃ k slot, getNearestLegIndex g legs pos ct = some (k, slot) ∧ k ≠ 0 ∧
        (k = -1 ∨ (1 ≤ k ∧ k ≤ size legs))) ∧
      ∀ out out', 2 ≤ size legs → getRouteDistances g legs pos out = some (true, out') →
        out'.nearestLegIndex ≠ some 0 := by
  constructor
  · obtain ⟨s, hs, hr, _⟩ := nearestScan_spec g legs pos
    exact ⟨s.nearest, _, getNearestLegIndex_of_scan g legs pos ct s hs, by omega, hr⟩
  · intro out out' hN h
    obtain ⟨s, leg, _, h1, h2, _, rfl⟩ := getRouteDistances_true_inv g legs pos out out' h
    have hc : 1 ≤ clampedIndex legs s.nearest := by
      unfold clampedIndex
      exact le_min h1 (by omega)
    cases hreq : out.nearestLegIndex with
    | none => simp
    | some old =>
      simp only [Option.map_some', ne_eq, Option.some.injEq]
      omega

/-- C20: every element access is in bounds. The reads `at(i - 1)`, `at(i)` of the first
loop and `at(i)` of the second loop succeed for the indices the loops visit; whenever the
nearest index is not -1 the sequence is not empty, the clamped index lies in `[0, N - 1]`
and the reads of both summation ranges succeed; hence neither function ever reaches an
out-of-range access. -/
theorem element_access_in_bounds (g : Geo Pos) (legs : List (RouteMapObject Pos)) (pos : Pos)
    (ct : Option ℚ) (out : Outputs) :
    (∀ i : Int, 1 ≤ i → i < size legs →
        0 ≤ i - 1 ∧ i ≤ size legs - 1 ∧
        (legAt legs (i - 1)).isSome = true ∧ (legAt legs i).isSome = true) ∧
      (∀ i : Int, 0 ≤ i → i < size legs → (legAt legs i).isSome = true) ∧
      (∃ k slot, getNearestLegIndex g legs pos ct = some (k, slot) ∧
        (k ≠ -1 → legs ≠ [] ∧ 0 ≤ min k (size legs - 1) ∧
          min k (size legs - 1) ≤ size legs - 1 ∧
          (∀ i : Int, 0 ≤ i → i ≤ min k (size legs - 1) → (legAt legs i).isSome = true) ∧
          (∀ i : Int, min k (size legs - 1) + 1 ≤ i → i < size legs →
            (legAt legs i).isSome = true))) ∧
      (getRouteDistances g legs pos out).isSome = true := by
  have hall : ∀ i : Int, 0 ≤ i → i < size legs → (legAt legs i).isSome = true := by
    intro i h0 h1
    obtain ⟨a, ha, _⟩ := legAt_of_lt legs i h0 h1
    rw [ha]
    rfl
  refine ⟨fun i h1 h2 => ⟨by omega, by omega, hall _ (by omega) (by omega), hall _ (by omega) h2⟩,
    hall, ?_, ?_⟩
  · obtain ⟨s, hs, hr, _⟩ := nearestScan_spec g legs pos
    refine ⟨s.nearest, _, getNearestLegIndex_of_scan g legs pos ct s hs, fun hk => ?_⟩
    rcases hr with hr | ⟨h1, h2⟩
    · exact absurd hr hk
    · have hne : legs ≠ [] := by
        intro hnil
        rw [hnil] at h2
        simp [size] at h2
        omega
      have hmin : min s.nearest (size legs - 1) ≤ size legs - 1 := min_le_right _ _
      exact ⟨hne, le_min (by omega) (by omega), hmin,
        fun i h0 hi => hall i h0 (by omega), fun i hi hN => hall i (by
          have : 0 ≤ min s.nearest (size legs - 1) := le_min (by omega) (by omega)
          omega) hN⟩
  · obtain ⟨s, _, h | ⟨_, _, _, _, h⟩⟩ := getRouteDistances_cases g legs pos out
    · rw [h.2]
      rfl
    · rw [h]
      rfl

/-! ## Further claims on `getRouteDistances` -/

/-- C17: on success `getRouteDistances` populates exactly the requested output slots. A
slot that was not requested stays absent and a requested slot is filled; and for any other
choice of requested slots and of prior contents the call succeeds as well and writes the
same value to every slot requested in both calls. -/
theorem getRouteDistances_requested_slots (g : Geo Pos) (legs : List (RouteMapObject Pos))
    (pos : Pos) (o1 o1' o2 : Outputs)
    (h : getRouteDistances g legs pos o1 = some (true, o1')) :
    (o1'.distFromStartNm.isSome = o1.distFromStartNm.isSome ∧
      o1'.distToDestNm.isSome = o1.distToDestNm.isSome ∧
      o1'.nearestLegDistance.isSome = o1.nearestLegDistance.isSome ∧
      o1'.crossTrackDistance.isSome = o1.crossTrackDistance.isSome ∧
      o1'.nearestLegIndex.isSome = o1.nearestLegIndex.isSome) ∧
    ∃ o2', getRouteDistances g legs pos o2 = some (true, o2') ∧
      (o1.distFromStartNm.isSome = true → o2.distFromStartNm.isSome = true →
        o1'.distFromStartNm = o2'.distFromStartNm) ∧
      (o1.distToDestNm.isSome = true → o2.distToDestNm.isSome = true →
        o1'.distToDestNm = o2'.distToDestNm) ∧
      (o1.nearestLegDistance.isSome = true → o2.nearestLegDistance.isSome = true →
        o1'.nearestLegDistance = o2'.nearestLegDistance) ∧
      (o1.crossTrackDistance.isSome = true → o2.crossTrackDistance.isSome = true →
        o1'.crossTrackDistance = o2'.crossTrackDistance) ∧
      (o1.nearestLegIndex.isSome = true → o2.nearestLegIndex.isSome = true →
        o1'.nearestLegIndex = o2'.nearestLegIndex) := by
  obtain ⟨s, leg, hs, h1, h2, hleg, rfl⟩ := getRouteDistances_true_inv g legs pos o1 o1' h
  obtain ⟨leg2, hleg2, hout2⟩ := getRouteDistances_of_scan_pos g legs pos o2 s hs h1 h2
  rw [hleg] at hleg2
  cases hleg2
  have hct : ∀ o : Option ℚ, (writeCrossTrack g s.minCrossTrack o).isSome = o.isSome := by
    intro o
    cases o with
    | none => rfl
    | some v =>
      unfold writeCrossTrack
      simp only
      split <;> rfl
  refine ⟨⟨by simp, by simp, by simp, hct _, by simp⟩, _, hout2, ?_, ?_, ?_, ?_, ?_⟩
  · intro ha hb
    obtain ⟨v, hv⟩ := Option.isSome_iff_exists.mp ha
    obtain ⟨w, hw⟩ := Option.isSome_iff_exists.mp hb
    simp [hv, hw]
  · intro ha hb
    obtain ⟨v, hv⟩ := Option.isSome_iff_exists.mp ha
    obtain ⟨w, hw⟩ := Option.isSome_iff_exists.mp hb
    simp [hv, hw]
  · intro ha hb
    obtain ⟨v, hv⟩ := Option.isSome_iff_exists.mp ha
    obtain ⟨w, hw⟩ := Option.isSome_iff_exists.mp hb
    simp [hv, hw]
  · intro ha hb
    obtain ⟨v, hv⟩ := Option.isSome_iff_exists.mp ha
    obtain ⟨w, hw⟩ := Option.isSome_iff_exists.mp hb
    simp [hv, hw, writeCrossTrack]
  · intro ha hb
    obtain ⟨v, hv⟩ := Option.isSome_iff_exists.mp ha
    obtain ⟨w, hw⟩ := Option.isSome_iff_exists.mp hb
    simp [hv, hw]

/-- Witness for C17: the sample route queried 926 m after its first leg, once with all
slots requested and once with two slots that hold other values. -/
theorem getRouteDistances_requested_slots_witness :
    ((⟨some (1 / 2), some (3 / 2), some (1 / 2), some 0, some 1⟩ :
          Outputs).distFromStartNm.isSome = allRequested.distFromStartNm.isSome ∧
      (⟨some (1 / 2), some (3 / 2), some (1 / 2), some 0, some 1⟩ :
          Outputs).distToDestNm.isSome = allRequested.distToDestNm.isSome ∧
      (⟨some (1 / 2), some (3 / 2), some (1 / 2), some 0, some 1⟩ :
          Outputs).nearestLegDistance.isSome = allRequested.nearestLegDistance.isSome ∧
      (⟨some (1 / 2), some (3 / 2), some (1 / 2), some 0, some 1⟩ :
          Outputs).crossTrackDistance.isSome = allRequested.crossTrackDistance.isSome ∧
      (⟨some (1 / 2), some (3 / 2), some (1 / 2), some 0, some 1⟩ :
          Outputs).nearestLegIndex.isSome = allRequested.nearestLegIndex.isSome) ∧
    ∃ o2', getRouteDistances trackGeo sampleRoute 926 twoRequested = some (true, o2') ∧
      (allRequested.distFromStartNm.isSome = true → twoRequested.distFromStartNm.isSome = true →
        (⟨some (1 / 2), some (3 / 2), some (1 / 2), some 0, some 1⟩ :
          Outputs).distFromStartNm = o2'.distFromStartNm) ∧
      (allRequested.distToDestNm.isSome = true → twoRequested.distToDestNm.isSome = true →
        (⟨some (1 / 2), some (3 / 2), some (1 / 2), some 0, some 1⟩ :
          Outputs).distToDestNm = o2'.distToDestNm) ∧
      (allRequested.nearestLegDistance.isSome = true →
        twoRequested.nearestLegDistance.isSome = true →
        (⟨some (1 / 2), some (3 / 2), some (1 / 2), some 0, some 1⟩ :
          Outputs).nearestLegDistance = o2'.nearestLegDistance) ∧
      (allRequested.crossTrackDistance.isSome = true →
        twoRequested.crossTrackDistance.isSome = true →
        (⟨some (1 / 2), some (3 / 2), some (1 / 2), some 0, some 1⟩ :
          Outputs).crossTrackDistance = o2'.crossTrackDistance) ∧
      (allRequested.nearestLegIndex.isSome = true → twoRequested.nearestLegIndex.isSome = true →
        (⟨some (1 / 2), some (3 / 2), some (1 / 2), some 0, some 1⟩ :
          Outputs).nearestLegIndex = o2'.nearestLegIndex) :=
  getRouteDistances_requested_slots trackGeo sampleRoute 926 allRequested
    ⟨some (1 / 2), some (3 / 2), some (1 / 2), some 0, some 1⟩ twoRequested
    (by decide!)

/-! ## A query position on the middle leg of three -/

/-- The locals after both loops for three legs and a position with point distance 0 to the
middle leg: the first segment with a valid projection and cross-track distance 0 is
recorded, and the middle leg (as index 2) when there is no such segment. -/
theorem nearestScan_on_middle_leg (g : Geo Pos) (a b c : RouteMapObject Pos) (pos : Pos)
    (hb : g.distanceMeterTo b.position pos = 0)
    (ha : 0 < g.distanceMeterTo a.position pos)
    (hc : 0 < g.distanceMeterTo c.position pos) :
    ∃ s, nearestScan g [a, b, c] pos = some s ∧
      (g.distanceMeterToLine pos a.position b.position = (0, true) →
        s.nearest = 1 ∧ s.minCrossTrack = 0) ∧
      (g.distanceMeterToLine pos a.position b.position ≠ (0, true) →
        g.distanceMeterToLine pos b.position c.position = (0, true) →
        s.nearest = 2 ∧ s.minCrossTrack = 0) ∧
      (g.distanceMeterToLine pos a.position b.position ≠ (0, true) →
        g.distanceMeterToLine pos b.position c.position ≠ (0, true) →
        s.nearest = 2 ∧ s.minCrossTrack = INVALID_VALUE) := by
  obtain ⟨s, hs, _, hB, hC, hW⟩ := nearestScan_winner g [a, b, c] pos
  refine ⟨s, hs, ?_⟩
  have e0 : crossTrackAt g [a, b, c] pos 0 =
      some (g.distanceMeterToLine pos a.position b.position) := rfl
  have e1 : crossTrackAt g [a, b, c] pos 1 =
      some (g.distanceMeterToLine pos b.position c.position) := rfl
  have p0 : pointDistanceAt g [a, b, c] pos 0 = some (g.distanceMeterTo a.position pos) := rfl
  have p1 : pointDistanceAt g [a, b, c] pos 1 = some 0 := by
    rw [← hb]
    rfl
  have p2 : pointDistanceAt g [a, b, c] pos 2 = some (g.distanceMeterTo c.position pos) := rfl
  have hmin : s.minDistance ≤ 0 := hC 1 0 p1
  rcases hW with ⟨_, hm, _⟩ | ⟨j, x, hn, hx, hm, hmc, _, hfirst⟩ |
      ⟨j, d, hn, hd, hm, hmc, _, hseg, _⟩
  · rw [hm] at hmin
    exact absurd FLT_MAX_pos (not_lt.mpr hmin)
  · have hx0 : x = 0 := by
      rw [hm] at hmin
      exact abs_eq_zero.mp (le_antisymm hmin (abs_nonneg x))
    subst hx0
    have hj := crossTrackAt_lt g [a, b, c] pos j _ hx
    simp only [List.length_cons, List.length_nil] at hj
    have hj2 : j = 0 ∨ j = 1 := by omega
    rcases hj2 with rfl | rfl
    · rw [e0] at hx
      simp only [Option.some.injEq] at hx
      refine ⟨fun _ => ⟨by rw [hn]; rfl, hmc⟩, fun h => absurd hx h, fun h => absurd hx h⟩
    · rw [e1] at hx
      simp only [Option.some.injEq] at hx
      have hne : g.distanceMeterToLine pos a.position b.position ≠ (0, true) := by
        intro h
        have := hfirst 0 0 (by omega) (by rw [e0, h])
        simp at this
      exact ⟨fun h => absurd h hne, fun _ _ => ⟨by rw [hn]; rfl, hmc⟩,
        fun _ h => absurd hx h⟩
  · have hd0 : d ≤ 0 := by
      rw [hm] at hmin
      exact hmin
    have hj := pointDistanceAt_lt g [a, b, c] pos j d hd
    simp only [List.length_cons, List.length_nil] at hj
    have hj3 : j = 0 ∨ j = 1 ∨ j = 2 := by omega
    rcases hj3 with rfl | rfl | rfl
    · rw [p0] at hd
      simp only [Option.some.injEq] at hd
      rw [hd] at ha
      exact absurd ha (not_lt.mpr hd0)
    · rw [p1] at hd
      simp only [Option.some.injEq] at hd
      subst hd
      have hne0 : g.distanceMeterToLine pos a.position b.position ≠ (0, true) := by
        intro h
        have := hseg 0 0 (by rw [e0, h])
        simp at this
      have hne1 : g.distanceMeterToLine pos b.position c.position ≠ (0, true) := by
        intro h
        have := hseg 1 0 (by rw [e1, h])
        simp at this
      exact ⟨fun h => absurd h hne0, fun _ h => absurd h hne1,
        fun _ _ => ⟨by rw [hn]; rfl, hmc⟩⟩
    · rw [p2] at hd
      simp only [Option.some.injEq] at hd
      rw [hd] at hc
      exact absurd hc (not_lt.mpr hd0)

/-- C15 (counterexample): legs at 0, 111120 m and 222240 m with leg distances 0, 111120,
111120 and a query position exactly on the middle leg. When the projection onto the first
segment is valid at its end (`trackGeo`), `getNearestLegIndex` returns 1 with the
cross-track output 0, which is not the sentinel; when no projection is valid there
(`openTrackGeo`), it returns 2 with the sentinel. Neither is index 1 with the sentinel. -/
theorem getNearestLegIndex_on_middle_leg_values :
    trackGeo.distanceMeterTo 111120 111120 = 0 ∧
      0 < trackGeo.distanceMeterTo 0 111120 ∧ 0 < trackGeo.distanceMeterTo 222240 111120 ∧
      getNearestLegIndex trackGeo degreeRoute 111120 (some 0) = some (1, some 0) ∧
      (0 : ℚ) ≠ INVALID_VALUE ∧
      getNearestLegIndex openTrackGeo degreeRoute 111120 (some 0) =
        some (2, some INVALID_VALUE) := by
  decide!

/-- C15 (amended): for a three-leg sequence and a query position with point distance 0 to
leg 1 and positive point distance to legs 0 and 2, `getNearestLegIndex` returns 1 with the
cross-track output `meterToNm(0)` (a segment match) when segment (0, 1) has a valid
projection with cross-track distance 0; otherwise it returns 2, with the cross-track output
`meterToNm(0)` when segment (1, 2) has a valid projection with cross-track distance 0, and
with the sentinel `INVALID_VALUE` (the vertex match on leg 1, reported as 1 + 1) when
neither segment has one. -/
theorem getNearestLegIndex_on_middle_leg (g : Geo Pos) (a b c : RouteMapObject Pos) (pos : Pos)
    (ct : Option ℚ) (hb : g.distanceMeterTo b.position pos = 0)
    (ha : 0 < g.distanceMeterTo a.position pos)
    (hc : 0 < g.distanceMeterTo c.position pos) :
    ∃ k slot, getNearestLegIndex g [a, b, c] pos ct = some (k, slot) ∧
      (g.distanceMeterToLine pos a.position b.position = (0, true) →
        k = 1 ∧ slot = ct.map fun _ => g.meterToNm 0) ∧
      (g.distanceMeterToLine pos a.position b.position ≠ (0, true) →
        g.distanceMeterToLine pos b.position c.position = (0, true) →
        k = 2 ∧ slot = ct.map fun _ => g.meterToNm 0) ∧
      (g.distanceMeterToLine pos a.position b.position ≠ (0, true) →
        g.distanceMeterToLine pos b.position c.position ≠ (0, true) →
        k = 2 ∧ slot = ct.map fun _ => INVALID_VALUE) := by
  obtain ⟨s, hs, h1, h2, h3⟩ := nearestScan_on_middle_leg g a b c pos hb ha hc
  have hzero : writeCrossTrack g 0 ct = ct.map fun _ => g.meterToNm 0 :=
    writeCrossTrack_segment g 0 ct (by rw [abs_zero]; exact FLT_MAX_pos)
  refine ⟨s.nearest, _, getNearestLegIndex_of_scan g [a, b, c] pos ct s hs, ?_, ?_, ?_⟩
  · intro h
    obtain ⟨hn, hmc⟩ := h1 h
    exact ⟨hn, by rw [hmc, hzero]⟩
  · intro h h'
    obtain ⟨hn, hmc⟩ := h2 h h'
    exact ⟨hn, by rw [hmc, hzero]⟩
  · intro h h'
    obtain ⟨hn, hmc⟩ := h3 h h'
    exact ⟨hn, by rw [hmc, writeCrossTrack_invalid]⟩

/-- Witness for C15 (amended): the legs one degree apart, queried on the middle leg. -/
theorem getNearestLegIndex_on_middle_leg_witness :
    ∃ k slot, getNearestLegIndex trackGeo
        [⟨0, 0⟩, ⟨111120, 111120⟩, ⟨222240, 111120⟩] 111120 (some 0) = some (k, slot) ∧
      (trackGeo.distanceMeterToLine 111120 0 111120 = (0, true) →
        k = 1 ∧ slot = (some 0 : Option ℚ).map fun _ => trackGeo.meterToNm 0) ∧
      (trackGeo.distanceMeterToLine 111120 0 111120 ≠ (0, true) →
        trackGeo.distanceMeterToLine 111120 111120 222240 = (0, true) →
        k = 2 ∧ slot = (some 0 : Option ℚ).map fun _ => trackGeo.meterToNm 0) ∧
      (trackGeo.distanceMeterToLine 111120 0 111120 ≠ (0, true) →
        trackGeo.distanceMeterToLine 111120 111120 222240 ≠ (0, true) →
        k = 2 ∧ slot = (some 0 : Option ℚ).map fun _ => INVALID_VALUE) :=
  getNearestLegIndex_on_middle_leg trackGeo ⟨0, 0⟩ ⟨111120, 111120⟩ ⟨222240, 111120⟩ 111120
    (some 0) (by decide!) (by decide!) (by decide!)

/-- C16 (counterexample): the legs one degree apart queried exactly on the middle leg, with
a projection that is not valid at the end of a segment (`openTrackGeo`). The vertex match on
leg 1 is reported as index 2, so `getRouteDistances` measures against leg 2:
`nearestLegDistance` is 60 (not 0), `distFromStart` is 222180 (not 111120) and `distToDest`
is 60 (not 111120). -/
theorem getRouteDistances_on_middle_leg_values :
    openTrackGeo.distanceMeterTo 111120 111120 = 0 ∧
      0 < openTrackGeo.distanceMeterTo 0 111120 ∧
      0 < openTrackGeo.distanceMeterTo 222240 111120 ∧
      getRouteDistances openTrackGeo degreeRoute 111120 allRequested =
        some (true, ⟨some 222180, some 60, some 60, some INVALID_VALUE, some 2⟩) ∧
      (60 : ℚ) ≠ 0 ∧ (222180 : ℚ) ≠ 111120 ∧ (60 : ℚ) ≠ 111120 := by
  decide!

/-- C16 (amended): for a three-leg sequence with non-negative binary32 `distanceTo` values
0, `d1`, `d2`, a query position with point distance 0 to leg 1 and positive point distance
to legs 0 and 2, and `meterToNm(0) = 0`, `getRouteDistances` succeeds. When segment (0, 1)
has a valid projection with cross-track distance 0 it reports `nearestLegIndex` 1,
`nearestLegDistance = 0`, `distFromStart = d1` and `distToDest = d2`. Otherwise it reports
`nearestLegIndex` 2, `nearestLegDistance = c`, `distFromStart = |(d1 + d2) - c|` with the
`float` addition and subtraction, each rounded to binary32, and `distToDest = |c|`, where
`c` is the point distance to leg 2 in nautical miles, a binary32 value. -/
theorem getRouteDistances_on_middle_leg (g : Geo Pos) (pa pb pc : Pos) (d1 d2 : ℚ) (pos : Pos)
    (out : Outputs) (hb : g.distanceMeterTo pb pos = 0) (ha : 0 < g.distanceMeterTo pa pos)
    (hc : 0 < g.distanceMeterTo pc pos) (hnm : g.meterToNm 0 = 0)
    (hd1 : 0 ≤ d1) (hd2 : 0 ≤ d2) (hf1 : roundF32 d1 = d1) (hf2 : roundF32 d2 = d2)
    (hfc : roundF32 (g.meterToNm (g.distanceMeterTo pc pos)) =
      g.meterToNm (g.distanceMeterTo pc pos)) :
    ∃ out', getRouteDistances g [⟨pa, 0⟩, ⟨pb, d1⟩, ⟨pc, d2⟩] pos out = some (true, out') ∧
      (g.distanceMeterToLine pos pa pb = (0, true) →
        out'.nearestLegIndex = out.nearestLegIndex.map (fun _ => 1) ∧
        out'.nearestLegDistance = out.nearestLegDistance.map (fun _ => 0) ∧
        out'.distFromStartNm = out.distFromStartNm.map (fun _ => d1) ∧
        out'.distToDestNm = out.distToDestNm.map (fun _ => d2)) ∧
      (g.distanceMeterToLine pos pa pb ≠ (0, true) →
        out'.nearestLegIndex = out.nearestLegIndex.map (fun _ => 2) ∧
        out'.nearestLegDistance =
          out.nearestLegDistance.map (fun _ => g.meterToNm (g.distanceMeterTo pc pos)) ∧
        out'.distFromStartNm = out.distFromStartNm.map
          (fun _ => |floatSub (floatAdd d1 d2) (g.meterToNm (g.distanceMeterTo pc pos))|) ∧
        out'.distToDestNm =
          out.distToDestNm.map (fun _ => |g.meterToNm (g.distanceMeterTo pc pos)|)) := by
  obtain ⟨s, hs, h1, h2, h3⟩ :=
    nearestScan_on_middle_leg g ⟨pa, 0⟩ ⟨pb, d1⟩ ⟨pc, d2⟩ pos hb ha hc
  have hz : floatAdd 0 0 = 0 := by
    unfold floatAdd
    rw [add_zero]
    exact roundF32_zero
  have hz1 : floatAdd 0 d1 = d1 := by
    unfold floatAdd
    rw [zero_add, hf1]
  have hz2 : floatAdd 0 d2 = d2 := by
    unfold floatAdd
    rw [zero_add, hf2]
  by_cases hX : g.distanceMeterToLine pos pa pb = (0, true)
  · obtain ⟨hn, _⟩ := h1 hX
    obtain ⟨leg, hleg, hout⟩ := getRouteDistances_of_scan_pos g
      [⟨pa, 0⟩, ⟨pb, d1⟩, ⟨pc, d2⟩] pos out s hs (by omega) (by rw [hn]; simp [size])
    have hclamp : clampedIndex [(⟨pa, 0⟩ : RouteMapObject Pos), ⟨pb, d1⟩, ⟨pc, d2⟩]
        s.nearest = 1 := by
      rw [hn]
      simp [clampedIndex, size]
    rw [hclamp] at hleg hout
    simp only [Int.toNat_one, List.getElem?_cons_succ, List.getElem?_cons_zero,
      Option.some.injEq] at hleg
    subst hleg
    have hS : floatSum (List.take ((1 : Int).toNat + 1)
        [(⟨pa, 0⟩ : RouteMapObject Pos), ⟨pb, d1⟩, ⟨pc, d2⟩]) = d1 := by
      simp [floatSum, hz, hz1]
    have hR : floatSum (List.drop ((1 : Int).toNat + 1)
        [(⟨pa, 0⟩ : RouteMapObject Pos), ⟨pb, d1⟩, ⟨pc, d2⟩]) = d2 := by
      simp [floatSum, hz2]
    have hsub : floatSub d1 0 = d1 := by
      unfold floatSub
      rw [sub_zero, hf1]
    have hadd : floatAdd d2 0 = d2 := by
      unfold floatAdd
      rw [add_zero, hf2]
    refine ⟨_, hout, fun _ => ⟨rfl, ?_, ?_, ?_⟩, fun h => absurd hX h⟩
    · simp [hb, hnm]
    · simp only [hS, hb, hnm, hsub, abs_of_nonneg hd1]
    · simp only [hR, hb, hnm, hadd, abs_of_nonneg hd2]
  · have hn : s.nearest = 2 := by
      by_cases hY : g.distanceMeterToLine pos pb pc = (0, true)
      · exact (h2 hX hY).1
      · exact (h3 hX hY).1
    obtain ⟨leg, hleg, hout⟩ := getRouteDistances_of_scan_pos g
      [⟨pa, 0⟩, ⟨pb, d1⟩, ⟨pc, d2⟩] pos out s hs (by omega) (by rw [hn]; simp [size])
    have hclamp : clampedIndex [(⟨pa, 0⟩ : RouteMapObject Pos), ⟨pb, d1⟩, ⟨pc, d2⟩]
        s.nearest = 2 := by
      rw [hn]
      simp [clampedIndex, size]
    rw [hclamp] at hleg hout
    have h2nat : (2 : Int).toNat = 2 := rfl
    simp only [h2nat, List.getElem?_cons_succ, List.getElem?_cons_zero,
      Option.some.injEq] at hleg
    subst hleg
    have hS : floatSum (List.take ((2 : Int).toNat + 1)
        [(⟨pa, 0⟩ : RouteMapObject Pos), ⟨pb, d1⟩, ⟨pc, d2⟩]) = floatAdd d1 d2 := by
      simp [h2nat, floatSum, hz, hz1]
    have hR : floatSum (List.drop ((2 : Int).toNat + 1)
        [(⟨pa, 0⟩ : RouteMapObject Pos), ⟨pb, d1⟩, ⟨pc, d2⟩]) = 0 := by
      simp [h2nat, floatSum]
    have hadd : floatAdd 0 (g.meterToNm (g.distanceMeterTo pc pos)) =
        g.meterToNm (g.distanceMeterTo pc pos) := by
      unfold floatAdd
      rw [zero_add, hfc]
    refine ⟨_, hout, fun h => absurd h hX, fun _ => ⟨rfl, rfl, ?_, ?_⟩⟩
    · simp only [hS]
    · simp only [hR, hadd]

/-- Witness for C16 (amended): the legs one degree apart, queried on the middle leg. -/
theorem getRouteDistances_on_middle_leg_witness :
    ∃ out', getRouteDistances trackGeo
        [⟨0, 0⟩, ⟨111120, 111120⟩, ⟨222240, 111120⟩] 111120 allRequested = some (true, out') ∧
      (trackGeo.distanceMeterToLine 111120 0 111120 = (0, true) →
        out'.nearestLegIndex = allRequested.nearestLegIndex.map (fun _ => 1) ∧
        out'.nearestLegDistance = allRequested.nearestLegDistance.map (fun _ => 0) ∧
        out'.distFromStartNm = allRequested.distFromStartNm.map (fun _ => 111120) ∧
        out'.distToDestNm = allRequested.distToDestNm.map (fun _ => 111120)) ∧
      (trackGeo.distanceMeterToLine 111120 0 111120 ≠ (0, true) →
        out'.nearestLegIndex = allRequested.nearestLegIndex.map (fun _ => 2) ∧
        out'.nearestLegDistance = allRequested.nearestLegDistance.map
          (fun _ => trackGeo.meterToNm (trackGeo.distanceMeterTo 222240 111120)) ∧
        out'.distFromStartNm = allRequested.distFromStartNm.map
          (fun _ => |floatSub (floatAdd 111120 111120)
            (trackGeo.meterToNm (trackGeo.distanceMeterTo 222240 111120))|) ∧
        out'.distToDestNm = allRequested.distToDestNm.map
          (fun _ => |trackGeo.meterToNm (trackGeo.distanceMeterTo 222240 111120)|)) :=
  getRouteDistances_on_middle_leg trackGeo 0 111120 222240 111120 111120 111120 allRequested
    (by decide!) (by decide!) (by decide!) (by decide!) (by decide!) (by decide!)
    (by decide!) (by decide!) (by decide!)

/-! ## Ties between candidates -/

theorem everyLegAll_spec (g : Geo Pos) (legs : List (RouteMapObject Pos)) (pos : Pos)
    (p : ℚ → Bool) (h : everyLegAll g legs pos p = true) (j : Nat) (d : ℚ)
    (hd : pointDistanceAt g legs pos j = some d) : p d = true := by
  unfold everyLegAll at h
  rw [List.all_eq_true] at h
  have hj := pointDistanceAt_lt g legs pos j d hd
  have := h j (List.mem_range.mpr hj)
  rw [hd] at this
  exact this

/-- C21 (counterexample): two legs and a geometry engine that reports the reserved maximum
for every distance, with a valid projection. The absolute cross-track distance of the only
segment equals the smallest point distance of a leg and both are minimal, yet the segment
does not win: `getNearestLegIndex` returns -1 and the cross-track output is the sentinel. -/
theorem tie_at_reserved_maximum :
    crossTrackAt saturatedGeo unitRoute () 0 = some (FLT_MAX, true) ∧
      |FLT_MAX| = FLT_MAX ∧
      pointDistanceAt saturatedGeo unitRoute () 0 = some FLT_MAX ∧
      pointDistanceAt saturatedGeo unitRoute () 1 = some FLT_MAX ∧
      getNearestLegIndex saturatedGeo unitRoute () (some 0) =
        some (-1, some INVALID_VALUE) := by
  decide!

/-- C21 (amended): ties go to the earliest candidate in scan order (segments by ascending
index, then legs by ascending index), provided the tied distance is below `FLT_MAX`. If a
valid segment's absolute cross-track distance is below `FLT_MAX`, at most that of every
valid segment, strictly below that of every earlier valid segment and at most the point
distance of every leg (equality allowed), then its ending index is returned and the
cross-track output is its signed cross-track distance in nautical miles, not the sentinel.
If a leg's point distance is below `FLT_MAX`, strictly below the absolute cross-track
distance of every valid segment, at most the point distance of every leg and strictly below
that of every earlier leg, then its index plus one is returned with the sentinel. -/
theorem getNearestLegIndex_ties (g : Geo Pos) (legs : List (RouteMapObject Pos)) (pos : Pos)
    (ct : Option ℚ) :
    (∀ (j : Nat) (x : ℚ), crossTrackAt g legs pos j = some (x, true) → |x| < FLT_MAX →
      (∀ j' x', crossTrackAt g legs pos j' = some (x', true) → |x| ≤ |x'|) →
      (∀ j' x', j' < j → crossTrackAt g legs pos j' = some (x', true) → |x| < |x'|) →
      (∀ i d, pointDistanceAt g legs pos i = some d → |x| ≤ d) →
      getNearestLegIndex g legs pos ct =
          some ((j : Int) + 1, ct.map fun _ => g.meterToNm x) ∧
        (g.meterToNm x ≠ INVALID_VALUE →
          (ct.map fun _ => g.meterToNm x) ≠ some INVALID_VALUE)) ∧
    (∀ (i : Nat) (d : ℚ), pointDistanceAt g legs pos i = some d → d < FLT_MAX →
      (∀ j x, crossTrackAt g legs pos j = some (x, true) → d < |x|) →
      (∀ i' d', pointDistanceAt g legs pos i' = some d' → d ≤ d') →
      (∀ i' d', i' < i → pointDistanceAt g legs pos i' = some d' → d < d') →
      getNearestLegIndex g legs pos ct =
        some ((i : Int) + 1, ct.map fun _ => INVALID_VALUE)) := by
  obtain ⟨s, hs, _, hB, hC, hW⟩ := nearestScan_winner g legs pos
  rw [getNearestLegIndex_of_scan g legs pos ct s hs]
  constructor
  · intro j x hx hmax hsegmin hfirst hvert
    refine ⟨?_, ?_⟩
    · rcases hW with ⟨_, hm, _⟩ | ⟨j0, x0, hn, hx0, hm, hmc, hlt, hfirst0⟩ |
          ⟨i0, d0, _, hd0, hm, _, _, hseg0, _⟩
      · have := hB j x hx
        rw [hm] at this
        exact absurd hmax (not_lt.mpr this)
      · have h1 : |x0| ≤ |x| := by
          rw [← hm]
          exact hB j x hx
        have h2 : |x| ≤ |x0| := hsegmin j0 x0 hx0
        have hjj : j0 = j := by
          rcases Nat.lt_trichotomy j0 j with h | h | h
          · exact absurd (hfirst j0 x0 h hx0) (not_lt.mpr h1)
          · exact h
          · exact absurd (hfirst0 j x h hx) (not_lt.mpr h2)
        subst hjj
        rw [hx] at hx0
        simp only [Option.some.injEq, Prod.mk.injEq, and_true] at hx0
        subst hx0
        rw [hn, hmc, writeCrossTrack_segment g x ct hlt]
      · have h1 : d0 < |x| := hseg0 j x hx
        exact absurd h1 (not_lt.mpr (hvert i0 d0 hd0))
    · intro hne
      cases ct with
      | none => simp
      | some old =>
        simp only [Option.map_some', ne_eq, Option.some.injEq]
        exact hne
  · intro i d hd hmax hseg hvert hfirst
    rcases hW with ⟨_, hm, _⟩ | ⟨j0, x0, _, hx0, hm, _⟩ |
        ⟨i0, d0, hn, hd0, hm, hmc, _, _, hfirst0⟩
    · have := hC i d hd
      rw [hm] at this
      exact absurd hmax (not_lt.mpr this)
    · have := hC i d hd
      rw [hm] at this
      exact absurd (hseg j0 x0 hx0) (not_lt.mpr this)
    · have h1 : d0 ≤ d := by
        rw [← hm]
        exact hC i d hd
      have h2 : d ≤ d0 := hvert i0 d0 hd0
      have hii : i0 = i := by
        rcases Nat.lt_trichotomy i0 i with h | h | h
        · exact absurd (hfirst i0 d0 h hd0) (not_lt.mpr h1)
        · exact h
        · exact absurd (hfirst0 i d h hd) (not_lt.mpr h2)
      subst hii
      rw [hn, hmc, writeCrossTrack_invalid]

/-- Witness for C21 (amended): a position on the middle leg of `stripRoute`, at distance 0
from both segments and from that leg, resolves to the first segment; a position at the same
distance 350 m from both legs of `sideRoute` and abeam of no segment resolves to the first
leg. -/
theorem getNearestLegIndex_ties_witness :
    (getNearestLegIndex stripGeo stripRoute (1852, 0) (some 7) =
        some (((0 : Nat) : Int) + 1, (some 7 : Option ℚ).map fun _ => stripGeo.meterToNm 0) ∧
      (stripGeo.meterToNm 0 ≠ INVALID_VALUE →
        ((some 7 : Option ℚ).map fun _ => stripGeo.meterToNm 0) ≠ some INVALID_VALUE)) ∧
    getNearestLegIndex stripGeo sideRoute (100, 250) (some 7) =
      some (((0 : Nat) : Int) + 1, (some 7 : Option ℚ).map fun _ => INVALID_VALUE) :=
  ⟨(getNearestLegIndex_ties stripGeo stripRoute (1852, 0) (some 7)).1 0 0
      (by decide!) (by decide!)
      (fun j' x' hx' => of_decide_eq_true
        (validSegmentsAll_spec stripGeo stripRoute (1852, 0) (fun x' => decide (|0| ≤ |x'|))
          (by decide!) j' x' hx'))
      (fun j' _ hj' _ => absurd hj' (Nat.not_lt_zero j'))
      (fun i d hd => of_decide_eq_true
        (everyLegAll_spec stripGeo stripRoute (1852, 0) (fun d => decide (|0| ≤ d))
          (by decide!) i d hd)),
    (getNearestLegIndex_ties stripGeo sideRoute (100, 250) (some 7)).2 0 350
      (by decide!) (by decide!)
      (fun j x hx => of_decide_eq_true
        (validSegmentsAll_spec stripGeo sideRoute (100, 250) (fun x => decide (350 < |x|))
          (by decide!) j x hx))
      (fun i' d' hd' => of_decide_eq_true
        (everyLegAll_spec stripGeo sideRoute (100, 250) (fun d' => decide (350 ≤ d'))
          (by decide!) i' d' hd'))
      (fun i' _ hi' _ => absurd hi' (Nat.not_lt_zero i'))⟩

/-! ## The sum of the two along-route distances -/

/-- C22 (counterexample): leg distances 0 and the binary32 values nearest to 87.4 and 0.1,
queried on the last leg, so that `nearestLegDistance` is 0: `distFromStart + distToDest` is
87.5, which differs from `total + 2 * max(0, c - S) = total` and falls below the total
87.5000015..., the `float` sum being rounded. And a route of one leg with an engine that
reports the signed distance -1: the sum is 2 while `total + 2 * max(0, c - S)` is 0. -/
theorem getRouteDistances_sum_formula_fails :
    getRouteDistances trackGeo decimalRoute 3704 allRequested =
        some (true, ⟨some (175 / 2), some 0, some 0, some 0, some 2⟩) ∧
      (∀ l ∈ decimalRoute, 0 ≤ l.distanceTo) ∧
      (175 / 2 : ℚ) + 0 ≠
        sumDistanceTo decimalRoute + 2 * max 0 (0 - sumDistanceTo (decimalRoute.take 3)) ∧
      (175 / 2 : ℚ) + 0 < sumDistanceTo decimalRoute ∧
      getRouteDistances signedGeo singleLegRoute 1852 allRequested =
        some (true, ⟨some 1, some 1, some (-1), some INVALID_VALUE, some 0⟩) ∧
      (1 : ℚ) + 1 ≠
        sumDistanceTo singleLegRoute +
          2 * max 0 (-1 - sumDistanceTo (singleLegRoute.take 1)) := by
  decide!

/-- C22 (amended): for every leg sequence with non-negative `distanceTo` values and every
query position on which `getRouteDistances` succeeds without rounding (both accumulated
sums, the subtraction and the last addition are exact) and with a `nearestLegDistance`
that is not negative, `distFromStart + distToDest = total + 2 * max(0, c - S)`, where
`total` is the sum of all `distanceTo`, `c` is `nearestLegDistance` and `S` is the sum of
`distanceTo` over legs 0 through the clamped index; the sum equals the total route length
exactly when `S ≥ c`, and never falls below it. -/
theorem getRouteDistances_sum_formula (g : Geo Pos) (legs : List (RouteMapObject Pos))
    (pos : Pos) (out out' : Outputs) (ct : Option ℚ) (k : Int) (slot : Option ℚ) (a b c : ℚ)
    (h : getRouteDistances g legs pos out = some (true, out'))
    (hk : getNearestLegIndex g legs pos ct = some (k, slot))
    (hnn : ∀ l ∈ legs, 0 ≤ l.distanceTo)
    (ha : out'.distFromStartNm = some a) (hb : out'.distToDestNm = some b)
    (hc : out'.nearestLegDistance = some c) (hc0 : 0 ≤ c)
    (hexact : NoRounding legs ((min k (size legs - 1)).toNat + 1) c) :
    a + b = sumDistanceTo legs +
        2 * max 0 (c - sumDistanceTo (legs.take ((min k (size legs - 1)).toNat + 1))) ∧
      (a + b = sumDistanceTo legs ↔
        c ≤ sumDistanceTo (legs.take ((min k (size legs - 1)).toNat + 1))) ∧
      sumDistanceTo legs ≤ a + b := by
  obtain ⟨rfl, rfl⟩ :=
    getRouteDistances_exact_slots g legs pos out out' ct k slot a b c h hk ha hb hc hexact
  have hR : 0 ≤ sumDistanceTo (legs.drop ((min k (size legs - 1)).toNat + 1)) :=
    sumDistanceTo_nonneg _ fun l hl => hnn l (List.mem_of_mem_drop hl)
  have hsplit := sumDistanceTo_take_add_drop legs ((min k (size legs - 1)).toNat + 1)
  generalize sumDistanceTo (legs.take ((min k (size legs - 1)).toNat + 1)) = S at *
  generalize sumDistanceTo (legs.drop ((min k (size legs - 1)).toNat + 1)) = R at *
  rw [← hsplit, abs_of_nonneg (add_nonneg hR hc0)]
  rcases le_total c S with hle | hle
  · rw [abs_of_nonneg (sub_nonneg.mpr hle), max_eq_left (sub_nonpos.mpr hle)]
    refine ⟨by ring, ⟨fun _ => hle, fun _ => by ring⟩, by linarith⟩
  · rw [abs_of_nonpos (sub_nonpos.mpr hle), max_eq_right (sub_nonneg.mpr hle)]
    refine ⟨by ring, ⟨fun heq => by linarith, fun hle' => by linarith⟩, by linarith⟩

/-- Witness for C22 (amended): the route that consists of its departure only, queried one
nautical mile away, where the sum exceeds the total route length 0 by 2. -/
theorem getRouteDistances_sum_formula_witness :
    (1 : ℚ) + 1 = sumDistanceTo singleLegRoute +
        2 * max 0 (1 - sumDistanceTo
          (singleLegRoute.take ((min 1 (size singleLegRoute - 1)).toNat + 1))) ∧
      ((1 : ℚ) + 1 = sumDistanceTo singleLegRoute ↔
        1 ≤ sumDistanceTo
          (singleLegRoute.take ((min 1 (size singleLegRoute - 1)).toNat + 1))) ∧
      sumDistanceTo singleLegRoute ≤ (1 : ℚ) + 1 :=
  getRouteDistances_sum_formula trackGeo singleLegRoute 1852 allRequested
    ⟨some 1, some 1, some 1, some INVALID_VALUE, some 0⟩ none 1 none 1 1 1
    (by decide!) (by decide!) (by decide!) rfl rfl rfl (by decide!)
    (by unfold NoRounding; decide!)

end RouteMapObjectList

namespace ProcedureSearch

variable {T : Type} [DecidableEq T]

/-! ## The sort order of procedure records -/

/-- The priority table as a case distinction on the key. -/
theorem hashValue_priority (env : ProcEnv T) (key : T) :
    hashValue (priority env) key =
      if env.PROCEDURE_APPROACH = key then 2
      else if env.PROCEDURE_STAR = key then 1
      else 0 := by
  unfold hashValue priority
  by_cases h1 : env.PROCEDURE_APPROACH = key
  · simp [List.find?, h1]
  · by_cases h2 : env.PROCEDURE_STAR = key
    · simp [List.find?, h1, h2]
    · by_cases h3 : env.PROCEDURE_SID = key
      · simp [List.find?, h1, h2, h3]
      · simp [List.find?, h1, h2, h3]

/-- The value of `procedureSortFunc` in terms of the sort keys. -/
theorem procedureSortFunc_iff (env : ProcEnv T) (r1 r2 : SqlRecord) :
    procedureSortFunc env r1 r2 = true ↔
      (sortKey env r1).1 < (sortKey env r2).1 ∨
        ((sortKey env r1).1 = (sortKey env r2).1 ∧
          (r1.airport_runway_name < r2.airport_runway_name ∨
            (r1.airport_runway_name = r2.airport_runway_name ∧
              r1.fix_ident < r2.fix_ident))) := by
  unfold procedureSortFunc sortKey
  simp only
  by_cases hp : hashValue (priority env) (buildTypeFromApproachRec env r1) =
      hashValue (priority env) (buildTypeFromApproachRec env r2)
  · rw [if_pos hp]
    by_cases hr : r1.airport_runway_name = r2.airport_runway_name
    · rw [if_pos hr]
      simp [hp, hr]
    · rw [if_neg hr]
      simp [hp, hr]
  · rw [if_neg hp]
    simp [hp]

/-- C18: `procedureSortFunc(rec1, rec2)` is the lexicographic strict less-than on the
triple (priority of the procedure type, `airport_runway_name`, `fix_ident`) with priority
SID = 0 < STAR = 1 < APPROACH = 2. A SID record sorts before every STAR record and a STAR
record before every approach record regardless of names; equal priorities are ordered by
runway name; equal priority and runway name are ordered by `fix_ident`. -/
theorem procedureSortFunc_lexicographic (env : ProcEnv T)
    (hdistinct : env.PROCEDURE_SID ≠ env.PROCEDURE_STAR ∧
      env.PROCEDURE_SID ≠ env.PROCEDURE_APPROACH ∧
      env.PROCEDURE_STAR ≠ env.PROCEDURE_APPROACH)
    (r1 r2 : SqlRecord) :
    (procedureSortFunc env r1 r2 = true ↔
        Prod.Lex (· < ·) (Prod.Lex (· < ·) (· < ·)) (sortKey env r1) (sortKey env r2)) ∧
      (hashValue (priority env) env.PROCEDURE_SID = 0 ∧
        hashValue (priority env) env.PROCEDURE_STAR = 1 ∧
        hashValue (priority env) env.PROCEDURE_APPROACH = 2) ∧
      (buildTypeFromApproachRec env r1 = env.PROCEDURE_SID →
        buildTypeFromApproachRec env r2 = env.PROCEDURE_STAR →
        procedureSortFunc env r1 r2 = true ∧ procedureSortFunc env r2 r1 = false) ∧
      (buildTypeFromApproachRec env r1 = env.PROCEDURE_STAR →
        buildTypeFromApproachRec env r2 = env.PROCEDURE_APPROACH →
        procedureSortFunc env r1 r2 = true ∧ procedureSortFunc env r2 r1 = false) ∧
      (buildTypeFromApproachRec env r1 = env.PROCEDURE_SID →
        buildTypeFromApproachRec env r2 = env.PROCEDURE_APPROACH →
        procedureSortFunc env r1 r2 = true ∧ procedureSortFunc env r2 r1 = false) ∧
      ((sortKey env r1).1 = (sortKey env r2).1 →
        r1.airport_runway_name ≠ r2.airport_runway_name →
        (procedureSortFunc env r1 r2 = true ↔
          r1.airport_runway_name < r2.airport_runway_name)) ∧
      ((sortKey env r1).1 = (sortKey env r2).1 →
        r1.airport_runway_name = r2.airport_runway_name →
        (procedureSortFunc env r1 r2 = true ↔ r1.fix_ident < r2.fix_ident)) := by
  obtain ⟨h12, h13, h23⟩ := hdistinct
  have pSid : hashValue (priority env) env.PROCEDURE_SID = 0 := by
    rw [hashValue_priority, if_neg (Ne.symm h13), if_neg (Ne.symm h12)]
  have pStar : hashValue (priority env) env.PROCEDURE_STAR = 1 := by
    rw [hashValue_priority, if_neg (Ne.symm h23), if_pos rfl]
  have pApp : hashValue (priority env) env.PROCEDURE_APPROACH = 2 := by
    rw [hashValue_priority, if_pos rfl]
  have hlt : ∀ a b : SqlRecord, (sortKey env a).1 < (sortKey env b).1 →
      procedureSortFunc env a b = true ∧ procedureSortFunc env b a = false := by
    intro a b hab
    refine ⟨(procedureSortFunc_iff env a b).mpr (Or.inl hab), ?_⟩
    rw [← Bool.not_eq_true, procedureSortFunc_iff]
    rintro (h | ⟨h, _⟩)
    · exact absurd hab (not_lt.mpr (le_of_lt h))
    · rw [h] at hab
      exact absurd hab (lt_irrefl _)
  refine ⟨?_, ⟨pSid, pStar, pApp⟩, ?_, ?_, ?_, ?_, ?_⟩
  · rw [procedureSortFunc_iff, Prod.lex_def, Prod.lex_def]
    rfl
  · intro e1 e2
    apply hlt
    show hashValue _ _ < hashValue _ _
    rw [e1, e2, pSid, pStar]
    decide
  · intro e1 e2
    apply hlt
    show hashValue _ _ < hashValue _ _
    rw [e1, e2, pStar, pApp]
    decide
  · intro e1 e2
    apply hlt
    show hashValue _ _ < hashValue _ _
    rw [e1, e2, pSid, pApp]
    decide
  · intro hp hr
    rw [procedureSortFunc_iff]
    constructor
    · rintro (h | ⟨_, h | ⟨h, _⟩⟩)
      · rw [hp] at h
        exact absurd h (lt_irrefl _)
      · exact h
      · exact absurd h hr
    · intro h
      exact Or.inr ⟨hp, Or.inl h⟩
  · intro hp hr
    rw [procedureSortFunc_iff]
    constructor
    · rintro (h | ⟨_, h | ⟨_, h⟩⟩)
      · rw [hp] at h
        exact absurd h (lt_irrefl _)
      · rw [hr] at h
        exact absurd h (lt_irrefl _)
      · exact h
    · intro h
      exact Or.inr ⟨hp, Or.inr ⟨hr, h⟩⟩

/-- Witness for C18: a SID record and a STAR record in the sample environment. -/
theorem procedureSortFunc_lexicographic_witness :
    (sampleEnv.PROCEDURE_SID ≠ sampleEnv.PROCEDURE_STAR ∧
      sampleEnv.PROCEDURE_SID ≠ sampleEnv.PROCEDURE_APPROACH ∧
      sampleEnv.PROCEDURE_STAR ≠ sampleEnv.PROCEDURE_APPROACH) ∧
    ((procedureSortFunc sampleEnv sidRecord starRecord = true ↔
        Prod.Lex (· < ·) (Prod.Lex (· < ·) (· < ·)) (sortKey sampleEnv sidRecord)
          (sortKey sampleEnv starRecord)) ∧
      (hashValue (priority sampleEnv) sampleEnv.PROCEDURE_SID = 0 ∧
        hashValue (priority sampleEnv) sampleEnv.PROCEDURE_STAR = 1 ∧
        hashValue (priority sampleEnv) sampleEnv.PROCEDURE_APPROACH = 2) ∧
      (buildTypeFromApproachRec sampleEnv sidRecord = sampleEnv.PROCEDURE_SID →
        buildTypeFromApproachRec sampleEnv starRecord = sampleEnv.PROCEDURE_STAR →
        procedureSortFunc sampleEnv sidRecord starRecord = true ∧
          procedureSortFunc sampleEnv starRecord sidRecord = false) ∧
      (buildTypeFromApproachRec sampleEnv sidRecord = sampleEnv.PROCEDURE_STAR →
        buildTypeFromApproachRec sampleEnv starRecord = sampleEnv.PROCEDURE_APPROACH →
        procedureSortFunc sampleEnv sidRecord starRecord = true ∧
          procedureSortFunc sampleEnv starRecord sidRecord = false) ∧
      (buildTypeFromApproachRec sampleEnv sidRecord = sampleEnv.PROCEDURE_SID →
        buildTypeFromApproachRec sampleEnv starRecord = sampleEnv.PROCEDURE_APPROACH →
        procedureSortFunc sampleEnv sidRecord starRecord = true ∧
          procedureSortFunc sampleEnv starRecord sidRecord = false) ∧
      ((sortKey sampleEnv sidRecord).1 = (sortKey sampleEnv starRecord).1 →
        sidRecord.airport_runway_name ≠ starRecord.airport_runway_name →
        (procedureSortFunc sampleEnv sidRecord starRecord = true ↔
          sidRecord.airport_runway_name < starRecord.airport_runway_name)) ∧
      ((sortKey sampleEnv sidRecord).1 = (sortKey sampleEnv starRecord).1 →
        sidRecord.airport_runway_name = starRecord.airport_runway_name →
        (procedureSortFunc sampleEnv sidRecord starRecord = true ↔
          sidRecord.fix_ident < starRecord.fix_ident))) :=
  ⟨by decide, procedureSortFunc_lexicographic sampleEnv (by decide) sidRecord starRecord⟩

/-- The sort function compares the sort keys in the lexicographic linear order. -/
theorem procedureSortFunc_iff_lex (env : ProcEnv T) (r1 r2 : SqlRecord) :
    procedureSortFunc env r1 r2 = true ↔
      toLex ((sortKey env r1).1, toLex (r1.airport_runway_name, r1.fix_ident)) <
        toLex ((sortKey env r2).1, toLex (r2.airport_runway_name, r2.fix_ident)) := by
  rw [procedureSortFunc_iff, Prod.Lex.lt_iff, Prod.Lex.lt_iff]

/-- C23: `procedureSortFunc` is a strict weak ordering on procedure records, as `std::sort`
requires: it is irreflexive, asymmetric and transitive, and incomparability (neither record
less than the other) is transitive. This holds for every environment, so also for records
whose procedure type is missing from the priority table and therefore gets the default
priority 0. -/
theorem procedureSortFunc_strict_weak_order (env : ProcEnv T) :
    (∀ r, procedureSortFunc env r r = false) ∧
      (∀ a b, procedureSortFunc env a b = true → procedureSortFunc env b a = false) ∧
      (∀ a b c, procedureSortFunc env a b = true → procedureSortFunc env b c = true →
        procedureSortFunc env a c = true) ∧
      (∀ a b c, procedureSortFunc env a b = false → procedureSortFunc env b a = false →
        procedureSortFunc env b c = false → procedureSortFunc env c b = false →
        procedureSortFunc env a c = false ∧ procedureSortFunc env c a = false) ∧
      (∀ key, key ≠ env.PROCEDURE_SID → key ≠ env.PROCEDURE_STAR →
        key ≠ env.PROCEDURE_APPROACH → hashValue (priority env) key = 0) := by
  refine ⟨?_, ?_, ?_, ?_, ?_⟩
  · intro r
    rw [← Bool.not_eq_true, procedureSortFunc_iff_lex]
    exact lt_irrefl _
  · intro a b hab
    rw [procedureSortFunc_iff_lex] at hab
    rw [← Bool.not_eq_true, procedureSortFunc_iff_lex]
    exact lt_asymm hab
  · intro a b c hab hbc
    rw [procedureSortFunc_iff_lex] at hab hbc ⊢
    exact lt_trans hab hbc
  · intro a b c hab hba hbc hcb
    rw [← Bool.not_eq_true, procedureSortFunc_iff_lex] at hab hba hbc hcb
    have e1 := le_antisymm (not_lt.mp hba) (not_lt.mp hab)
    have e2 := le_antisymm (not_lt.mp hcb) (not_lt.mp hbc)
    constructor
    · rw [← Bool.not_eq_true, procedureSortFunc_iff_lex, e1, e2]
      exact lt_irrefl _
    · rw [← Bool.not_eq_true, procedureSortFunc_iff_lex, e1, e2]
      exact lt_irrefl _
  · intro key h1 h2 h3
    rw [hashValue_priority, if_neg (Ne.symm h3), if_neg (Ne.symm h2)]

end ProcedureSearch
